import Mathlib

/-!
Binance WebSocket client (`binance/binance_ws.go`).

A shallow embedding of the streaming client: the client record `BinanceWs`, the
subscription operations (`SubscribeDepth`, `SubscribeTicker`, `SubscribeTrade`,
`SubscribeKline`, `subscribe`, `connectWs`), the inbound router `handle` with its
parsers, and the symbol resolver `getPairFromType`.

Conventions of the embedding.

* Go `error` results are `Option String` (`none` is `nil`), a panic is a separate exit.
* Network effects (building the socket, starting the receive loop, sending a
  subscribe directive) are returned as a list of `NetAction`s, in program order.
* Callback invocations are returned as a list of `Call`s, in program order.
* Everything the file imports from the root package or from libraries and whose
  code is not part of `binance_ws.go` is a field of `Deps`, so that every theorem
  quantified over `Deps` holds for whatever those functions compute.
* `F` is the type of 64-bit floating point numbers; no arithmetic is done on it.
-/

namespace Binance

/-! ## Data model -/

/-- Modelled from the spec: `CurrencyPair` (root package) holds the base and quote
asset identifiers of a market. -/
structure CurrencyPair where
  base : String
  quote : String
  deriving DecidableEq, Repr

/-- The zero value of `CurrencyPair`, what a freshly allocated record holds. -/
def CurrencyPair.zero : CurrencyPair := ⟨"", ""⟩

/-- A record of the symbol snapshot; `getPairFromType` reads these three fields. -/
structure TradeSymbol where
  Symbol : String
  BaseAsset : String
  QuoteAsset : String
  deriving DecidableEq, Repr

/-- Modelled from the spec: `TradeSide` (root package); the router uses `BUY` and `SELL`. -/
inductive TradeSide where
  | BUY
  | SELL
  deriving DecidableEq, Repr

/-- Modelled from the spec: the `Ticker` record (root package); `Date` is a `uint64`. -/
structure Ticker (F : Type) where
  Pair : CurrencyPair
  Last : F
  Buy : F
  Sell : F
  High : F
  Low : F
  Vol : F
  Date : Nat
  deriving DecidableEq, Repr

/-- Modelled from the spec: the `Kline` record (root package); `Timestamp` is an `int64`. -/
structure Kline (F : Type) where
  Pair : CurrencyPair
  Timestamp : Int
  Open : F
  Close : F
  High : F
  Low : F
  Vol : F
  deriving DecidableEq, Repr

/-- Modelled from the spec: the `Trade` record (root package); `Tid` and `Date` are `int64`,
`Type_` is the Go field `Type`. -/
structure Trade (F : Type) where
  Tid : Int
  Type_ : TradeSide
  Amount : F
  Price : F
  Date : Int
  Pair : CurrencyPair
  deriving DecidableEq, Repr

/-- A decoded JSON value, as `encoding/json` stores it in an `interface{}`:
`nil`, `bool`, `float64`, `string`, `[]interface{}` or `map[string]interface{}`.
A Go map is an association list read through `GoMap.index`. -/
inductive JValue (F : Type) where
  | null
  | bool (b : Bool)
  | number (x : F)
  | str (s : String)
  | array (xs : List (JValue F))
  | object (kvs : List (String × JValue F))

/-- The Go type `map[string]interface{}`. -/
abbrev GoMap (F : Type) := List (String × JValue F)

/-- The index expression `m[key]` of Go: the stored value, or `nil` when the key is absent. -/
def GoMap.index {F : Type} : GoMap F → String → JValue F
  | [], _ => JValue.null
  | (k, v) :: rest, key => if k = key then v else GoMap.index rest key

/-- The names of the fifteen period constants that `_INERNAL_KLINE_PERIOD_REVERTER` mentions. -/
inductive KlineConst where
  | KLINE_PERIOD_1MIN
  | KLINE_PERIOD_3MIN
  | KLINE_PERIOD_5MIN
  | KLINE_PERIOD_15MIN
  | KLINE_PERIOD_30MIN
  | KLINE_PERIOD_60MIN
  | KLINE_PERIOD_2H
  | KLINE_PERIOD_4H
  | KLINE_PERIOD_6H
  | KLINE_PERIOD_8H
  | KLINE_PERIOD_12H
  | KLINE_PERIOD_1DAY
  | KLINE_PERIOD_3DAY
  | KLINE_PERIOD_1WEEK
  | KLINE_PERIOD_1MONTH
  deriving DecidableEq, Repr

/-- Modelled from the spec: the connection object `WsConn` (root package). It remembers the
URL it was dialled against and the directives handed to it, oldest first. -/
structure WsConn where
  wsUrl : String
  sent : List String
  deriving DecidableEq, Repr

/-- Modelled from the spec: the builder `WsBuilder` (root package), of which the client sets
the socket URL and the reconnect interval (in hours). -/
structure WsBuilder where
  wsUrl : String
  reconnectIntervalHours : Nat
  deriving DecidableEq, Repr

/-- Modelled from the spec: `WsBuilder.Build` (root package) opens the socket for the
builder's URL; connection failures are dealt with inside the connection manager and do not
reach the caller. -/
def WsBuilder.Build (b : WsBuilder) : WsConn := ⟨b.wsUrl, []⟩

/-- A callback slot holds a Go function value; the number identifies the function. -/
abbrev Callback := Nat

/-- The client record `BinanceWs`. `Once` is the done flag of the embedded `sync.Once`,
a callback slot is `none` when the Go field is `nil`; the embedded builder is the one that
`NewBinanceWs` stores. -/
structure BinanceWs where
  WsBuilder : WsBuilder
  Once : Bool
  wsConn : Option WsConn
  baseURL : String
  combinedBaseURL : String
  tickerCallback : Option Callback
  depthCallback : Option Callback
  tradeCallback : Option Callback
  klineCallback : Option Callback
  tradeSymbols : List TradeSymbol
  deriving DecidableEq, Repr

/-- The code this file calls and does not define. A coercion returns `none` when it panics.
`Subscribe conn sub` is the error that `conn.Subscribe(sub)` returns. -/
structure Deps (F : Type) where
  ToSymbol : CurrencyPair → String → String
  ToLower : String → String
  NewCurrencyPair2 : String → CurrencyPair
  ToFloat64 : JValue F → Option F
  ToUint64 : JValue F → Option Nat
  ToInt : JValue F → Option Int
  KLINE_PERIOD : KlineConst → Int
  _INERNAL_KLINE_PERIOD_CONVERTER : Int → Option String
  Subscribe : WsConn → String → Option String

/-- Why a call panicked. -/
inductive Panic where
  | typeAssertion (key : String)
  | coercion
  | nilFunc
  | nilConn
  | err (e : String)
  | msg (s : String)
  deriving DecidableEq, Repr

/-- How a call ends: it returns its `error` result, or it panics. -/
inductive Exit where
  | ret (err : Option String)
  | panic (p : Panic)
  deriving DecidableEq, Repr

/-- A network effect of a subscribe call. -/
inductive NetAction where
  | build (wsUrl : String)
  | receiveMessage
  | subscribe (sub : String)
  deriving DecidableEq, Repr

/-- The outcome of a subscribe call: the client afterwards, the network effects, the exit. -/
structure SubRun where
  st : BinanceWs
  net : List NetAction
  exit : Exit
  deriving DecidableEq, Repr

/-! ## Configuration -/

def SetBaseUrl (bnWs : BinanceWs) (baseURL : String) : BinanceWs :=
  { bnWs with baseURL := baseURL }

def SetCombinedBaseURL (bnWs : BinanceWs) (combinedBaseURL : String) : BinanceWs :=
  { bnWs with combinedBaseURL := combinedBaseURL }

def SetCallbacks (bnWs : BinanceWs) (tickerCallback depthCallback tradeCallback
    klineCallback : Option Callback) : BinanceWs :=
  { bnWs with
    tickerCallback := tickerCallback
    depthCallback := depthCallback
    tradeCallback := tradeCallback
    klineCallback := klineCallback }

/-! ## Subscriptions -/

/-- The connect-once gate: `sync.Once.Do` runs its body only while the done flag is unset. -/
def connectWs (bnWs : BinanceWs) : BinanceWs × List NetAction :=
  if bnWs.Once then (bnWs, [])
  else
    ({ bnWs with Once := true, wsConn := some bnWs.WsBuilder.Build },
      [NetAction.build bnWs.WsBuilder.wsUrl, NetAction.receiveMessage])

/-- Connect if need be, then hand the directive to the connection. -/
def subscribe {F : Type} (deps : Deps F) (bnWs : BinanceWs) (sub : String) : SubRun :=
  let r := connectWs bnWs
  match r.1.wsConn with
  | none => ⟨r.1, r.2, Exit.panic Panic.nilConn⟩
  | some conn =>
    ⟨{ r.1 with wsConn := some { conn with sent := conn.sent ++ [sub] } },
      r.2 ++ [NetAction.subscribe sub], Exit.ret (deps.Subscribe conn sub)⟩

def SubscribeDepth {F : Type} (deps : Deps F) (bnWs : BinanceWs) (pair : CurrencyPair)
    (size : Int) : SubRun :=
  if bnWs.depthCallback = none then
    ⟨bnWs, [], Exit.ret (some "please set depth callback func")⟩
  else if size ≠ 5 ∧ size ≠ 10 ∧ size ≠ 20 then
    ⟨bnWs, [], Exit.ret (some "please set depth size as 5 / 10 / 20")⟩
  else
    let endpoint := bnWs.baseURL ++ "/" ++ deps.ToLower (deps.ToSymbol pair "") ++ "@depth<"
      ++ toString size ++ ">"
    subscribe deps bnWs endpoint

def SubscribeTicker {F : Type} (deps : Deps F) (bnWs : BinanceWs) (pair : CurrencyPair) :
    SubRun :=
  if bnWs.tickerCallback = none then
    ⟨bnWs, [], Exit.ret (some "please set ticker callback func")⟩
  else
    let endpoint := bnWs.baseURL ++ "/" ++ deps.ToLower (deps.ToSymbol pair "") ++ "@ticker"
    subscribe deps bnWs endpoint

def SubscribeTrade {F : Type} (deps : Deps F) (bnWs : BinanceWs) (pair : CurrencyPair) :
    SubRun :=
  if bnWs.tradeCallback = none then
    ⟨bnWs, [], Exit.ret (some "please set trade callback func")⟩
  else
    let endpoint := bnWs.baseURL ++ "/" ++ deps.ToLower (deps.ToSymbol pair "") ++ "@trade"
    subscribe deps bnWs endpoint

def SubscribeKline {F : Type} (deps : Deps F) (bnWs : BinanceWs) (pair : CurrencyPair)
    (period : Int) : SubRun :=
  if bnWs.klineCallback = none then
    ⟨bnWs, [], Exit.ret (some "place set kline callback func")⟩
  else
    let periodS :=
      match deps._INERNAL_KLINE_PERIOD_CONVERTER period with
      | some s => s
      | none => "M1"
    let endpoint := bnWs.baseURL ++ "/" ++ deps.ToLower (deps.ToSymbol pair "") ++ "@kline_"
      ++ periodS
    subscribe deps bnWs endpoint

/-! ## Inbound frames -/

/-- A callback invocation: the function that was called and its arguments. No code path
calls the depth callback; its constructor names the slot. -/
inductive Call (F : Type) where
  | ticker (cb : Callback) (t : Ticker F)
  | depth (cb : Callback)
  | trade (cb : Callback) (t : Trade F)
  | kline (cb : Callback) (k : Kline F) (period : Int)
  deriving DecidableEq, Repr

/-- The outcome of `handle`: the client afterwards, the callbacks invoked, the exit. -/
structure HandleRun (F : Type) where
  st : BinanceWs
  calls : List (Call F)
  exit : Exit
  deriving DecidableEq, Repr

/-- The Go conversion `int64(x)` of a 64-bit integer, signed or unsigned: the value wrapped
into the range of `int64`. -/
def int64 (x : Int) : Int :=
  (x + 9223372036854775808) % 18446744073709551616 - 9223372036854775808

/-- A value of type `uint64`. -/
def uint64 (x : Nat) : Nat := x % 18446744073709551616

/-- The result of a coercion of the root package, a panic when it has none. -/
def coerced {α : Type} : Option α → Except Panic α
  | some a => Except.ok a
  | none => Except.error Panic.coercion

/-- The type assertion `m[key].(string)` in its panicking form. -/
def assertString {F : Type} (m : GoMap F) (key : String) : Except Panic String :=
  match m.index key with
  | JValue.str s => Except.ok s
  | _ => Except.error (Panic.typeAssertion key)

/-- The type assertion `m[key].(bool)` in its panicking form. -/
def assertBool {F : Type} (m : GoMap F) (key : String) : Except Panic Bool :=
  match m.index key with
  | JValue.bool b => Except.ok b
  | _ => Except.error (Panic.typeAssertion key)

/-- The type assertion `m[key].(map[string]interface{})` in its panicking form. -/
def assertMap {F : Type} (m : GoMap F) (key : String) : Except Panic (GoMap F) :=
  match m.index key with
  | JValue.object kvs => Except.ok kvs
  | _ => Except.error (Panic.typeAssertion key)

/-- The map literal `_INERNAL_KLINE_PERIOD_REVERTER`, in source order. -/
def reverterEntries : List (String × KlineConst) :=
  [("1m", KlineConst.KLINE_PERIOD_1MIN),
   ("3m", KlineConst.KLINE_PERIOD_3MIN),
   ("5m", KlineConst.KLINE_PERIOD_5MIN),
   ("15m", KlineConst.KLINE_PERIOD_15MIN),
   ("30m", KlineConst.KLINE_PERIOD_30MIN),
   ("1h", KlineConst.KLINE_PERIOD_60MIN),
   ("2h", KlineConst.KLINE_PERIOD_2H),
   ("4h", KlineConst.KLINE_PERIOD_4H),
   ("6h", KlineConst.KLINE_PERIOD_6H),
   ("8h", KlineConst.KLINE_PERIOD_8H),
   ("12h", KlineConst.KLINE_PERIOD_12H),
   ("1d", KlineConst.KLINE_PERIOD_1DAY),
   ("3d", KlineConst.KLINE_PERIOD_3DAY),
   ("1w", KlineConst.KLINE_PERIOD_1WEEK),
   ("1M", KlineConst.KLINE_PERIOD_1MONTH)]

/-- The reverse period table: the constant stored under a textual code, if any. -/
def _INERNAL_KLINE_PERIOD_REVERTER {F : Type} (deps : Deps F) (code : String) : Option Int :=
  (reverterEntries.lookup code).map deps.KLINE_PERIOD

/-- The index expression on a `map[string]int`: the zero value `0` for an absent key. -/
def indexInt (v : Option Int) : Int := v.getD 0

def parseTickerData {F : Type} (deps : Deps F) (tickmap : GoMap F) :
    Except Panic (Ticker F) := do
  let date ← coerced (deps.ToUint64 (tickmap.index "E"))
  let last ← coerced (deps.ToFloat64 (tickmap.index "c"))
  let vol ← coerced (deps.ToFloat64 (tickmap.index "v"))
  let low ← coerced (deps.ToFloat64 (tickmap.index "l"))
  let high ← coerced (deps.ToFloat64 (tickmap.index "h"))
  let buy ← coerced (deps.ToFloat64 (tickmap.index "b"))
  let sell ← coerced (deps.ToFloat64 (tickmap.index "a"))
  pure { Pair := CurrencyPair.zero, Last := last, Buy := buy, Sell := sell, High := high,
         Low := low, Vol := vol, Date := uint64 date }

def parseKlineData {F : Type} (deps : Deps F) (k : GoMap F) : Except Panic (Kline F) := do
  let t ← coerced (deps.ToInt (k.index "t"))
  let o ← coerced (deps.ToFloat64 (k.index "o"))
  let c ← coerced (deps.ToFloat64 (k.index "c"))
  let h ← coerced (deps.ToFloat64 (k.index "h"))
  let l ← coerced (deps.ToFloat64 (k.index "l"))
  let v ← coerced (deps.ToFloat64 (k.index "v"))
  pure { Pair := CurrencyPair.zero, Timestamp := int64 t, Open := o, Close := c, High := h,
         Low := l, Vol := v }

/-- The scan of `getPairFromType` over the records that are left. -/
def getPairFromType.scan {F : Type} (deps : Deps F) (pair : String) :
    List TradeSymbol → CurrencyPair × Option String
  | [] => (deps.NewCurrencyPair2 ("" ++ "_" ++ ""), some ("pair not support :" ++ pair))
  | v :: rest =>
    if v.Symbol = pair then (deps.NewCurrencyPair2 (v.BaseAsset ++ "_" ++ v.QuoteAsset), none)
    else getPairFromType.scan deps pair rest

/-- The symbol resolver; it returns Go's two results, the pair and the error. -/
def getPairFromType {F : Type} (deps : Deps F) (bnWs : BinanceWs) (pair : String) :
    CurrencyPair × Option String :=
  getPairFromType.scan deps pair bnWs.tradeSymbols

/-- The lines `pair, err := bnWs.getPairFromType(datamap["s"].(string))` and
`if err != nil { panic(err) }` that the three cases of `handle` share. -/
def resolveOrPanic {F : Type} (deps : Deps F) (bnWs : BinanceWs) (datamap : GoMap F) :
    Except Panic CurrencyPair := do
  let s ← assertString datamap "s"
  match getPairFromType deps bnWs s with
  | (_, some err) => Except.error (Panic.err err)
  | (pair, none) => pure pair

/-- Calling the function in a callback slot; calling a `nil` function panics. -/
def invoke {F : Type} (slot : Option Callback) (call : Callback → Call F) :
    Except Panic (Call F) :=
  match slot with
  | some cb => Except.ok (call cb)
  | none => Except.error Panic.nilFunc

/-- Case `"24hrTicker"` of `handle`, up to and including the callback. -/
def handle.ticker {F : Type} (deps : Deps F) (bnWs : BinanceWs) (datamap : GoMap F) :
    Except Panic (Call F) := do
  let tick ← parseTickerData deps datamap
  let pair ← resolveOrPanic deps bnWs datamap
  invoke bnWs.tickerCallback (fun cb => Call.ticker cb { tick with Pair := pair })

/-- Case `"kline"` of `handle`, up to and including the callback. -/
def handle.kline {F : Type} (deps : Deps F) (bnWs : BinanceWs) (datamap : GoMap F) :
    Except Panic (Call F) := do
  let k ← assertMap datamap "k"
  let i ← assertString k "i"
  let period := indexInt (_INERNAL_KLINE_PERIOD_REVERTER deps i)
  let kline ← parseKlineData deps k
  let pair ← resolveOrPanic deps bnWs datamap
  invoke bnWs.klineCallback (fun cb => Call.kline cb { kline with Pair := pair } period)

/-- Case `"trade"` of `handle`, up to and including the callback. -/
def handle.trade {F : Type} (deps : Deps F) (bnWs : BinanceWs) (datamap : GoMap F) :
    Except Panic (Call F) := do
  let m ← assertBool datamap "m"
  let side := if m = false then TradeSide.SELL else TradeSide.BUY
  let tid ← coerced (deps.ToUint64 (datamap.index "t"))
  let amount ← coerced (deps.ToFloat64 (datamap.index "q"))
  let price ← coerced (deps.ToFloat64 (datamap.index "p"))
  let date ← coerced (deps.ToUint64 (datamap.index "E"))
  let trade : Trade F :=
    { Tid := int64 tid, Type_ := side, Amount := amount, Price := price, Date := int64 date,
      Pair := CurrencyPair.zero }
  let pair ← resolveOrPanic deps bnWs datamap
  invoke bnWs.tradeCallback (fun cb => Call.trade cb { trade with Pair := pair })

/-- A case of `handle` ends in `return nil` after its callback, unless it panicked. -/
def handle.finish {F : Type} (bnWs : BinanceWs) : Except Panic (Call F) → HandleRun F
  | Except.ok call => ⟨bnWs, [call], Exit.ret none⟩
  | Except.error p => ⟨bnWs, [], Exit.panic p⟩

/-- The router. Its argument stands for `msg`: it is what `json.Unmarshal(msg, &datamap)`
gives, the decoding error or the decoded document. -/
def handle {F : Type} (deps : Deps F) (bnWs : BinanceWs)
    (unmarshal : Except String (GoMap F)) : HandleRun F :=
  match unmarshal with
  | Except.error err => ⟨bnWs, [], Exit.ret (some err)⟩
  | Except.ok datamap =>
    match datamap.index "e" with
    | JValue.str msgType =>
      if msgType = "24hrTicker" then handle.finish bnWs (handle.ticker deps bnWs datamap)
      else if msgType = "kline" then handle.finish bnWs (handle.kline deps bnWs datamap)
      else if msgType = "trade" then handle.finish bnWs (handle.trade deps bnWs datamap)
      else ⟨bnWs, [], Exit.ret (some ("unknown message " ++ msgType))⟩
    | _ => ⟨bnWs, [], Exit.ret (some "no message type")⟩

/-! ## Construction -/

/-- The constructor. Its argument stands for the REST call `bn.getTradeSymbols()`: the
records and the error it returned. -/
def NewBinanceWs (getTradeSymbols : List TradeSymbol × Option String) :
    Except Panic BinanceWs :=
  let bnWs : BinanceWs :=
    { WsBuilder := ⟨"wss://stream.binance.com:9443/ws", 24⟩
      Once := false
      wsConn := none
      baseURL := "wss://stream.binance.com:9443/ws"
      combinedBaseURL := "wss://stream.binance.com:9443/stream?streams="
      tickerCallback := none
      depthCallback := none
      tradeCallback := none
      klineCallback := none
      tradeSymbols := getTradeSymbols.1 }
  if bnWs.tradeSymbols.length = 0 ∨ getTradeSymbols.2 ≠ none then
    Except.error (Panic.msg "trade symbol is empty, pls check connection...")
  else Except.ok bnWs

/-- The invariant of the connect-once gate: once the gate has fired, the connection is there. -/
def GateInv (bnWs : BinanceWs) : Prop := bnWs.Once = true → bnWs.wsConn ≠ none

instance (bnWs : BinanceWs) : Decidable (GateInv bnWs) := by
  unfold GateInv; infer_instance

/-- Whether a network effect is a subscribe directive. -/
def NetAction.isSubscribe : NetAction → Bool
  | NetAction.subscribe _ => true
  | _ => false

/-! ## A reference instance of the collaborators

The theorems below hold for every `Deps`. To evaluate the client on concrete frames, the
collaborators are instantiated as the spec describes them, with exact decimals for numbers. -/

namespace Ref

/-- An exact decimal `mant / 10 ^ scale`; it stands for the `float64` nearest to it. -/
structure Decimal where
  mant : Int
  scale : Nat
  deriving DecidableEq, Repr

def digitVal (c : Char) : Option Nat :=
  if 48 ≤ c.toNat ∧ c.toNat ≤ 57 then some (c.toNat - 48) else none

/-- Reads a run of decimal digits onto the accumulator. -/
def parseDigits : List Char → Nat → Option Nat
  | [], acc => some acc
  | c :: cs, acc =>
    match digitVal c with
    | some d => parseDigits cs (acc * 10 + d)
    | none => none

/-- Reads an unsigned decimal numeral such as `50.5` or `100`. -/
def parseUnsigned (cs : List Char) : Option Decimal :=
  let parts := cs.span (fun c => c != '.')
  match parts.1, parts.2 with
  | [], _ => none
  | ip, [] => (parseDigits ip 0).map (fun n => ⟨n, 0⟩)
  | _, [_] => none
  | ip, _ :: fp => (parseDigits (ip ++ fp) 0).map (fun n => ⟨n, fp.length⟩)

/-- Reads a decimal numeral with an optional minus sign. -/
def parseDecimal (s : String) : Option Decimal :=
  match s.data with
  | '-' :: cs => (parseUnsigned cs).map (fun d => ⟨-d.mant, d.scale⟩)
  | cs => parseUnsigned cs

/-- The integer part of a decimal, truncated towards zero. -/
def Decimal.trunc (d : Decimal) : Int := Int.tdiv d.mant (10 ^ d.scale)

/-- Modelled from the spec: `ToFloat64` (root package) accepts a native number or a numeric
string; the model gives it no result on anything else. -/
def ToFloat64 : JValue Decimal → Option Decimal
  | JValue.number x => some x
  | JValue.str s => parseDecimal s
  | _ => none

/-- Modelled from the spec: `ToInt` (root package) accepts a native number or a numeric
string and coerces it to an integer. -/
def ToInt (v : JValue Decimal) : Option Int :=
  (ToFloat64 v).map Decimal.trunc

/-- Modelled from the spec: `ToUint64` (root package) accepts a native number or a numeric
string and coerces it to an unsigned integer. -/
def ToUint64 (v : JValue Decimal) : Option Nat :=
  match ToFloat64 v with
  | some d => if 0 ≤ d.mant then some d.trunc.toNat else none
  | none => none

/-- Modelled from the spec: `CurrencyPair.ToSymbol` (root package) gives the string form of
the pair, base then quote, joined by the given text. -/
def ToSymbol (pair : CurrencyPair) (joinChar : String) : String :=
  pair.base ++ joinChar ++ pair.quote

/-- Modelled from the spec: `NewCurrencyPair2` (root package) reads the canonical string
form `BASE_QUOTE` of a pair. -/
def NewCurrencyPair2 (currencyPairSymbol : String) : CurrencyPair :=
  let parts := currencyPairSymbol.data.span (fun c => c != '_')
  ⟨String.mk parts.1, String.mk (parts.2.drop 1)⟩

/-- Lower-casing of `strings.ToLower`, on the ASCII letters. -/
def ToLower (s : String) : String := String.mk (s.data.map Char.toLower)

/-- Modelled from the spec: the internal integer period enumeration (root package), fifteen
distinct periods; the numbering is the order of the enumeration. -/
def KLINE_PERIOD : KlineConst → Int
  | KlineConst.KLINE_PERIOD_1MIN => 1
  | KlineConst.KLINE_PERIOD_3MIN => 2
  | KlineConst.KLINE_PERIOD_5MIN => 3
  | KlineConst.KLINE_PERIOD_15MIN => 4
  | KlineConst.KLINE_PERIOD_30MIN => 5
  | KlineConst.KLINE_PERIOD_60MIN => 6
  | KlineConst.KLINE_PERIOD_2H => 7
  | KlineConst.KLINE_PERIOD_4H => 8
  | KlineConst.KLINE_PERIOD_6H => 9
  | KlineConst.KLINE_PERIOD_8H => 10
  | KlineConst.KLINE_PERIOD_12H => 11
  | KlineConst.KLINE_PERIOD_1DAY => 12
  | KlineConst.KLINE_PERIOD_3DAY => 13
  | KlineConst.KLINE_PERIOD_1WEEK => 14
  | KlineConst.KLINE_PERIOD_1MONTH => 15

/-- Modelled from the spec: the forward period table `_INERNAL_KLINE_PERIOD_CONVERTER`
(declared in the REST client), the other direction of the period table: the textual code
of each of the fifteen periods. -/
def _INERNAL_KLINE_PERIOD_CONVERTER (period : Int) : Option String :=
  (reverterEntries.find? (fun e => KLINE_PERIOD e.2 = period)).map Prod.fst

/-- The reference collaborators; the connection accepts every directive. -/
def deps : Deps Decimal :=
  { ToSymbol := ToSymbol
    ToLower := ToLower
    NewCurrencyPair2 := NewCurrencyPair2
    ToFloat64 := ToFloat64
    ToUint64 := ToUint64
    ToInt := ToInt
    KLINE_PERIOD := KLINE_PERIOD
    _INERNAL_KLINE_PERIOD_CONVERTER := _INERNAL_KLINE_PERIOD_CONVERTER
    Subscribe := fun _ _ => none }

/-- The pair LTC/BTC. -/
def LTC_BTC : CurrencyPair := ⟨"LTC", "BTC"⟩

/-- A freshly constructed client whose symbol snapshot is the one record
`LTCBTC = LTC/BTC`; no callback is registered. -/
def fresh : BinanceWs :=
  { WsBuilder := ⟨"wss://stream.binance.com:9443/ws", 24⟩
    Once := false
    wsConn := none
    baseURL := "wss://stream.binance.com:9443/ws"
    combinedBaseURL := "wss://stream.binance.com:9443/stream?streams="
    tickerCallback := none
    depthCallback := none
    tradeCallback := none
    klineCallback := none
    tradeSymbols := [⟨"LTCBTC", "LTC", "BTC"⟩] }

/-- The client `fresh` after `SetCallbacks` registered the functions 1, 2, 3 and 4. -/
def client : BinanceWs := SetCallbacks fresh (some 1) (some 2) (some 3) (some 4)

/-- A whole number as a native JSON number. -/
def num (n : Int) : JValue Decimal := JValue.number ⟨n, 0⟩

/-- The ticker frame of the spec. -/
def tickerFrame : GoMap Decimal :=
  [("e", JValue.str "24hrTicker"), ("E", num 1620000000000), ("c", JValue.str "50.5"),
   ("v", JValue.str "100"), ("l", JValue.str "49"), ("h", JValue.str "52"),
   ("b", JValue.str "50.1"), ("a", JValue.str "50.9"), ("s", JValue.str "LTCBTC")]

/-- The trade frame of the spec. -/
def tradeFrame : GoMap Decimal :=
  [("e", JValue.str "trade"), ("t", num 123), ("m", JValue.bool false),
   ("q", JValue.str "2"), ("p", JValue.str "10"), ("E", num 1000),
   ("s", JValue.str "LTCBTC")]

/-- The nested object of the kline frame of the spec. -/
def klineInner : GoMap Decimal :=
  [("i", JValue.str "5m"), ("t", num 1000), ("o", JValue.str "1"), ("h", JValue.str "2"),
   ("l", JValue.str "0.5"), ("c", JValue.str "1.5"), ("v", JValue.str "10")]

/-- The kline frame of the spec. -/
def klineFrame : GoMap Decimal :=
  [("e", JValue.str "kline"), ("k", JValue.object klineInner), ("s", JValue.str "LTCBTC")]

/-- The trade frame of the spec with a symbol that the table does not hold. -/
def strayTradeFrame : GoMap Decimal :=
  [("e", JValue.str "trade"), ("t", num 123), ("m", JValue.bool false),
   ("q", JValue.str "2"), ("p", JValue.str "10"), ("E", num 1000),
   ("s", JValue.str "XXXYYY")]

/-- A frame whose discriminator is none of the three kinds. -/
def depthFrame : GoMap Decimal :=
  [("e", JValue.str "depthUpdate"), ("s", JValue.str "LTCBTC")]

/-- The nested object of the kline frame of the spec, with the period code `7m`, which the
reverse period table does not hold. -/
def oddKlineInner : GoMap Decimal :=
  [("i", JValue.str "7m"), ("t", num 1000), ("o", JValue.str "1"), ("h", JValue.str "2"),
   ("l", JValue.str "0.5"), ("c", JValue.str "1.5"), ("v", JValue.str "10")]

/-- The kline frame of the spec with the period code `7m`. -/
def oddKlineFrame : GoMap Decimal :=
  [("e", JValue.str "kline"), ("k", JValue.object oddKlineInner), ("s", JValue.str "LTCBTC")]

end Ref

/-! ## Auxiliary predicates and lemmas -/

/-- The discriminator `e` of the document is absent, is not a string, or is a string other
than the three kinds that `handle` routes. -/
def UnknownKind {F : Type} (datamap : GoMap F) : Prop :=
  ∀ t, datamap.index "e" = JValue.str t → t ≠ "24hrTicker" ∧ t ≠ "kline" ∧ t ≠ "trade"

/-- The symbol field `s` of the document does not resolve: it is absent, is not a string, or
is a string for which `getPairFromType` returns an error. -/
def Unresolved {F : Type} (deps : Deps F) (bnWs : BinanceWs) (datamap : GoMap F) : Prop :=
  ∀ s, datamap.index "s" = JValue.str s → (getPairFromType deps bnWs s).2 ≠ none

/-- Apart from its symbol the frame is well-formed for its kind: every step that `handle`
takes before it resolves the symbol succeeds. For a ticker that is `parseTickerData`; for
a kline, `k` is an object, `k.i` is a string and `parseKlineData` succeeds; for a trade, `m`
is a boolean and `t`, `q`, `p` and `E` coerce. -/
def WellFormedBeforeSymbol {F : Type} (deps : Deps F) (datamap : GoMap F) : Prop :=
  (datamap.index "e" = JValue.str "24hrTicker" ∧
    ∃ tick, parseTickerData deps datamap = Except.ok tick) ∨
  (datamap.index "e" = JValue.str "kline" ∧
    ∃ k i kline, datamap.index "k" = JValue.object k ∧ GoMap.index k "i" = JValue.str i ∧
      parseKlineData deps k = Except.ok kline) ∨
  (datamap.index "e" = JValue.str "trade" ∧
    ∃ m tid amount price date, datamap.index "m" = JValue.bool m ∧
      deps.ToUint64 (datamap.index "t") = some tid ∧
      deps.ToFloat64 (datamap.index "q") = some amount ∧
      deps.ToFloat64 (datamap.index "p") = some price ∧
      deps.ToUint64 (datamap.index "E") = some date)

/-- Whether a network effect builds the socket. -/
def NetAction.isBuild : NetAction → Bool
  | NetAction.build _ => true
  | _ => false

/-- A call of one of the four subscribe functions. -/
inductive SubCall where
  | ticker (pair : CurrencyPair)
  | trade (pair : CurrencyPair)
  | kline (pair : CurrencyPair) (period : Int)
  | depth (pair : CurrencyPair) (size : Int)
  deriving DecidableEq, Repr

/-- The subscribe function that the call names, run on the client. -/
def SubCall.run {F : Type} (deps : Deps F) (bnWs : BinanceWs) : SubCall → SubRun
  | SubCall.ticker pair => SubscribeTicker deps bnWs pair
  | SubCall.trade pair => SubscribeTrade deps bnWs pair
  | SubCall.kline pair period => SubscribeKline deps bnWs pair period
  | SubCall.depth pair size => SubscribeDepth deps bnWs pair size

/-- The call passes validation: the callback of its channel is set and, for depth, the size is
5, 10 or 20. -/
def SubCall.valid (bnWs : BinanceWs) : SubCall → Bool
  | SubCall.ticker _ => decide (bnWs.tickerCallback ≠ none)
  | SubCall.trade _ => decide (bnWs.tradeCallback ≠ none)
  | SubCall.kline _ _ => decide (bnWs.klineCallback ≠ none)
  | SubCall.depth _ size =>
    decide (bnWs.depthCallback ≠ none) && decide (size = 5 ∨ size = 10 ∨ size = 20)

/-- A sequence of subscribe calls made one after the other on one client: the client at the
end and the network effects of all calls, in order. A call that panics ends it. -/
def runCalls {F : Type} (deps : Deps F) : BinanceWs → List SubCall → BinanceWs × List NetAction
  | bnWs, [] => (bnWs, [])
  | bnWs, c :: rest =>
    match (c.run deps bnWs).exit with
    | Exit.panic _ => ((c.run deps bnWs).st, (c.run deps bnWs).net)
    | Exit.ret _ =>
      ((runCalls deps (c.run deps bnWs).st rest).1,
        (c.run deps bnWs).net ++ (runCalls deps (c.run deps bnWs).st rest).2)

/-- The value is not a string: the assertion `.(string)` fails on it. -/
def NotString {F : Type} (v : JValue F) : Prop := ∀ x, v ≠ JValue.str x

/-- The value is not a boolean: the assertion `.(bool)` fails on it. -/
def NotBool {F : Type} (v : JValue F) : Prop := ∀ b, v ≠ JValue.bool b

/-- The value is not an object: the assertion `.(map[string]interface{})` fails on it. -/
def NotObject {F : Type} (v : JValue F) : Prop := ∀ kvs, v ≠ JValue.object kvs

/-- A frame with a known discriminator and a missing or wrongly typed field: `s` absent or
not a string (any of the three kinds), `m` absent or not a boolean (trade), `k` absent or
not an object, or `k.i` absent or not a string (kline). An absent key indexes to `nil`. -/
def Malformed {F : Type} (datamap : GoMap F) : Prop :=
  (datamap.index "e" = JValue.str "24hrTicker" ∧ NotString (datamap.index "s")) ∨
  (datamap.index "e" = JValue.str "kline" ∧
    (NotObject (datamap.index "k") ∨
     (∃ k, datamap.index "k" = JValue.object k ∧ NotString (GoMap.index k "i")) ∨
     NotString (datamap.index "s"))) ∨
  (datamap.index "e" = JValue.str "trade" ∧
    (NotBool (datamap.index "m") ∨ NotString (datamap.index "s")))

/-! ## Sequences of calls -/

/-- A call of the public surface of the client: a setter, a subscription, or the router on
one inbound message. -/
inductive Op (F : Type) where
  | SetBaseUrl (baseURL : String)
  | SetCombinedBaseURL (combinedBaseURL : String)
  | SetCallbacks (tickerCallback depthCallback tradeCallback klineCallback : Option Callback)
  | SubscribeTicker (pair : CurrencyPair)
  | SubscribeTrade (pair : CurrencyPair)
  | SubscribeKline (pair : CurrencyPair) (period : Int)
  | SubscribeDepth (pair : CurrencyPair) (size : Int)
  | handle (unmarshal : Except String (GoMap F))

/-- The client after one call. -/
def Op.apply {F : Type} (deps : Deps F) (bnWs : BinanceWs) : Op F → BinanceWs
  | Op.SetBaseUrl u => Binance.SetBaseUrl bnWs u
  | Op.SetCombinedBaseURL u => Binance.SetCombinedBaseURL bnWs u
  | Op.SetCallbacks t d tr k => Binance.SetCallbacks bnWs t d tr k
  | Op.SubscribeTicker pair => (Binance.SubscribeTicker deps bnWs pair).st
  | Op.SubscribeTrade pair => (Binance.SubscribeTrade deps bnWs pair).st
  | Op.SubscribeKline pair period => (Binance.SubscribeKline deps bnWs pair period).st
  | Op.SubscribeDepth pair size => (Binance.SubscribeDepth deps bnWs pair size).st
  | Op.handle unmarshal => (Binance.handle deps bnWs unmarshal).st

/-- The client after a sequence of calls, first call first. -/
def reach {F : Type} (deps : Deps F) (bnWs : BinanceWs) (ops : List (Op F)) : BinanceWs :=
  ops.foldl (Op.apply deps) bnWs

theorem bind_ok_eq {α β : Type} (a : α) (f : α → Except Panic β) :
    (Except.ok a >>= f) = f a := rfl

theorem bind_error_eq {α β : Type} (p : Panic) (f : α → Except Panic β) :
    ((Except.error p : Except Panic α) >>= f) = Except.error p := rfl

/-- A sequence panics as soon as its continuation always does. -/
theorem bind_panics {α β : Type} (x : Except Panic α) (f : α → Except Panic β)
    (h : ∀ a, ∃ p, f a = Except.error p) : ∃ p, (x >>= f) = Except.error p := by
  cases x with
  | error p => exact ⟨p, rfl⟩
  | ok a => exact h a

/-- A sequence panics when its first step does. -/
theorem bind_panics_left {α β : Type} (x : Except Panic α) (f : α → Except Panic β)
    (h : ∃ p, x = Except.error p) : ∃ p, (x >>= f) = Except.error p := by
  obtain ⟨p, rfl⟩ := h
  exact ⟨p, rfl⟩

theorem resolveOrPanic_unresolved {F : Type} (deps : Deps F) (bnWs : BinanceWs)
    (datamap : GoMap F) (h : Unresolved deps bnWs datamap) :
    ∃ p, resolveOrPanic deps bnWs datamap = Except.error p := by
  unfold resolveOrPanic assertString
  cases hs : datamap.index "s" with
  | str s =>
    have hne := h s hs
    rw [bind_ok_eq]
    rcases hg : getPairFromType deps bnWs s with ⟨pair, _ | err⟩
    · rw [hg] at hne
      exact absurd rfl hne
    · exact ⟨Panic.err err, rfl⟩
  | null => exact ⟨_, rfl⟩
  | bool b => exact ⟨_, rfl⟩
  | number x => exact ⟨_, rfl⟩
  | array xs => exact ⟨_, rfl⟩
  | object kvs => exact ⟨_, rfl⟩

theorem resolveOrPanic_resolved {F : Type} (deps : Deps F) (bnWs : BinanceWs)
    (datamap : GoMap F) (s : String) (pair : CurrencyPair)
    (hs : datamap.index "s" = JValue.str s)
    (hp : getPairFromType deps bnWs s = (pair, none)) :
    resolveOrPanic deps bnWs datamap = Except.ok pair := by
  unfold resolveOrPanic assertString
  rw [hs, bind_ok_eq, hp]
  rfl

/-- The router on a decoded document: the `switch` on the discriminator. -/
theorem handle_ok {F : Type} (deps : Deps F) (bnWs : BinanceWs) (datamap : GoMap F) :
    handle deps bnWs (Except.ok datamap) =
      match datamap.index "e" with
      | JValue.str msgType =>
        if msgType = "24hrTicker" then handle.finish bnWs (handle.ticker deps bnWs datamap)
        else if msgType = "kline" then handle.finish bnWs (handle.kline deps bnWs datamap)
        else if msgType = "trade" then handle.finish bnWs (handle.trade deps bnWs datamap)
        else ⟨bnWs, [], Exit.ret (some ("unknown message " ++ msgType))⟩
      | _ => ⟨bnWs, [], Exit.ret (some "no message type")⟩ := rfl

theorem finish_st {F : Type} (bnWs : BinanceWs) (x : Except Panic (Call F)) :
    (handle.finish bnWs x).st = bnWs := by
  cases x <;> rfl

/-- The router never writes to the client record. -/
theorem handle_st {F : Type} (deps : Deps F) (bnWs : BinanceWs)
    (unmarshal : Except String (GoMap F)) : (handle deps bnWs unmarshal).st = bnWs := by
  cases unmarshal with
  | error err => rfl
  | ok datamap =>
    rw [handle_ok]
    split
    · split_ifs <;> first | exact finish_st _ _ | rfl
    · rfl

/-- On a document of unknown kind the router returns an error and calls nothing. -/
theorem handle_unknown_run {F : Type} (deps : Deps F) (bnWs : BinanceWs)
    (datamap : GoMap F) (h : UnknownKind datamap) :
    ∃ e, handle deps bnWs (Except.ok datamap) = ⟨bnWs, [], Exit.ret (some e)⟩ := by
  rw [handle_ok]
  split
  · next msgType he =>
    obtain ⟨h1, h2, h3⟩ := h msgType he
    exact ⟨"unknown message " ++ msgType, by simp [h1, h2, h3]⟩
  · exact ⟨_, rfl⟩

theorem scan_find {F : Type} (deps : Deps F) (pair : String) (l : List TradeSymbol) :
    getPairFromType.scan deps pair l =
      match l.find? (fun v => decide (v.Symbol = pair)) with
      | some v => (deps.NewCurrencyPair2 (v.BaseAsset ++ "_" ++ v.QuoteAsset), none)
      | none => (deps.NewCurrencyPair2 ("" ++ "_" ++ ""), some ("pair not support :" ++ pair)) := by
  induction l with
  | nil => rfl
  | cons v rest ih =>
    by_cases hv : v.Symbol = pair
    · simp [getPairFromType.scan, List.find?, hv]
    · simp [getPairFromType.scan, List.find?, hv, ih]

theorem gateInv_connectWs (bnWs : BinanceWs) (h : GateInv bnWs) :
    ∃ conn, (connectWs bnWs).1.wsConn = some conn := by
  unfold connectWs
  by_cases ho : bnWs.Once = true
  · have hc := h ho
    simp only [ho, if_true]
    exact Option.ne_none_iff_exists'.mp hc
  · simp [ho]

theorem connectWs_no_subscribe (bnWs : BinanceWs) :
    (connectWs bnWs).2.filter NetAction.isSubscribe = [] := by
  unfold connectWs
  by_cases ho : bnWs.Once = true <;> simp [ho, NetAction.isSubscribe]

/-- The constructor establishes the gate invariant. -/
theorem gateInv_NewBinanceWs (r : List TradeSymbol × Option String) (bnWs : BinanceWs)
    (h : NewBinanceWs r = Except.ok bnWs) : GateInv bnWs := by
  unfold NewBinanceWs at h
  dsimp only at h
  split_ifs at h
  cases h
  intro ho
  cases ho

/-- The operation `subscribe` keeps the gate invariant. -/
theorem gateInv_subscribe {F : Type} (deps : Deps F) (bnWs : BinanceWs) (sub : String)
    (h : GateInv bnWs) : GateInv (subscribe deps bnWs sub).st := by
  obtain ⟨conn, hc⟩ := gateInv_connectWs bnWs h
  unfold subscribe
  simp only [hc]
  intro _
  simp

/-- The reference client `fresh` is what the constructor returns on its snapshot. -/
theorem fresh_constructed :
    NewBinanceWs ([⟨"LTCBTC", "LTC", "BTC"⟩], none) = Except.ok Ref.fresh := rfl

/-- With the gate invariant, `subscribe` issues exactly the one directive it was given and
returns what the connection answers. -/
theorem subscribe_run {F : Type} (deps : Deps F) (bnWs : BinanceWs) (sub : String)
    (h : GateInv bnWs) :
    (subscribe deps bnWs sub).net.filter NetAction.isSubscribe = [NetAction.subscribe sub] ∧
    ∃ conn, (connectWs bnWs).1.wsConn = some conn ∧
      (subscribe deps bnWs sub).exit = Exit.ret (deps.Subscribe conn sub) := by
  obtain ⟨conn, hc⟩ := gateInv_connectWs bnWs h
  unfold subscribe
  simp only [hc]
  refine ⟨?_, conn, rfl, rfl⟩
  simp [List.filter_append, connectWs_no_subscribe, NetAction.isSubscribe]

/-! ## Subscription validation -/

/-- C1: for every client state, pair and size outside 5, 10 and 20, `SubscribeDepth` returns an
error, takes no network action and leaves the client (hence the connect-once gate) as it
was; for a size among 5, 10 and 20 with the depth callback set, validation passes, that is
the call is the call of `subscribe` on its one endpoint, and, in the states that satisfy the
gate invariant `GateInv`, exactly one subscribe directive is issued and the result is what
the connection answers. -/
theorem SubscribeDepth_size_validation {F : Type} (deps : Deps F) (bnWs : BinanceWs)
    (pair : CurrencyPair) (size : Int) :
    ((size ≠ 5 ∧ size ≠ 10 ∧ size ≠ 20) →
      (∃ e, (SubscribeDepth deps bnWs pair size).exit = Exit.ret (some e)) ∧
      (SubscribeDepth deps bnWs pair size).net = [] ∧
      (SubscribeDepth deps bnWs pair size).st = bnWs) ∧
    ((size = 5 ∨ size = 10 ∨ size = 20) → bnWs.depthCallback ≠ none →
      SubscribeDepth deps bnWs pair size
        = subscribe deps bnWs (bnWs.baseURL ++ "/" ++ deps.ToLower (deps.ToSymbol pair "")
            ++ "@depth<" ++ toString size ++ ">") ∧
      (GateInv bnWs →
        (SubscribeDepth deps bnWs pair size).net.filter NetAction.isSubscribe
          = [NetAction.subscribe (bnWs.baseURL ++ "/" ++ deps.ToLower (deps.ToSymbol pair "")
              ++ "@depth<" ++ toString size ++ ">")] ∧
        ∃ conn, (connectWs bnWs).1.wsConn = some conn ∧
          (SubscribeDepth deps bnWs pair size).exit
            = Exit.ret (deps.Subscribe conn (bnWs.baseURL ++ "/"
                ++ deps.ToLower (deps.ToSymbol pair "") ++ "@depth<" ++ toString size
                ++ ">")))) := by
  constructor
  · intro hsize
    unfold SubscribeDepth
    by_cases hcb : bnWs.depthCallback = none
    · simp [hcb]
    · simp [hcb, hsize]
  · intro hsize hcb
    have hval : ¬ (size ≠ 5 ∧ size ≠ 10 ∧ size ≠ 20) := by omega
    have heq : SubscribeDepth deps bnWs pair size = subscribe deps bnWs
        (bnWs.baseURL ++ "/" ++ deps.ToLower (deps.ToSymbol pair "") ++ "@depth<"
          ++ toString size ++ ">") := by
      unfold SubscribeDepth
      rw [if_neg hcb, if_neg hval]
    rw [heq]
    exact ⟨rfl, fun hinv => subscribe_run deps bnWs _ hinv⟩

/-- Instance of C1: on the reference client size 7 is refused without any network action, and
size 5 issues one directive. -/
theorem SubscribeDepth_size_validation_witness :
    ((∃ e, (SubscribeDepth Ref.deps Ref.client Ref.LTC_BTC 7).exit = Exit.ret (some e)) ∧
      (SubscribeDepth Ref.deps Ref.client Ref.LTC_BTC 7).net = [] ∧
      (SubscribeDepth Ref.deps Ref.client Ref.LTC_BTC 7).st = Ref.client) ∧
    (SubscribeDepth Ref.deps Ref.client Ref.LTC_BTC 5).net.filter NetAction.isSubscribe
      = [NetAction.subscribe "wss://stream.binance.com:9443/ws/ltcbtc@depth<5>"] :=
  ⟨(SubscribeDepth_size_validation Ref.deps Ref.client Ref.LTC_BTC 7).1 (by decide),
   ((((SubscribeDepth_size_validation Ref.deps Ref.client Ref.LTC_BTC 5).2
     (by decide) (by decide)).2 (by decide)).1).trans (by decide)⟩

/-- C2: each of `SubscribeTicker`, `SubscribeTrade`, `SubscribeKline` and `SubscribeDepth`,
called with any arguments while the callback slot of its channel kind is `nil`, returns
its error at once: no network action, and the client (hence the connect-once gate and the
other three slots, whatever they hold) is as before. -/
theorem Subscribe_callback_required {F : Type} (deps : Deps F) (bnWs : BinanceWs)
    (pair : CurrencyPair) (period size : Int) :
    (bnWs.tickerCallback = none →
      SubscribeTicker deps bnWs pair
        = ⟨bnWs, [], Exit.ret (some "please set ticker callback func")⟩) ∧
    (bnWs.tradeCallback = none →
      SubscribeTrade deps bnWs pair
        = ⟨bnWs, [], Exit.ret (some "please set trade callback func")⟩) ∧
    (bnWs.klineCallback = none →
      SubscribeKline deps bnWs pair period
        = ⟨bnWs, [], Exit.ret (some "place set kline callback func")⟩) ∧
    (bnWs.depthCallback = none →
      SubscribeDepth deps bnWs pair size
        = ⟨bnWs, [], Exit.ret (some "please set depth callback func")⟩) := by
  refine ⟨?_, ?_, ?_, ?_⟩
  · intro h
    simp [SubscribeTicker, h]
  · intro h
    simp [SubscribeTrade, h]
  · intro h
    simp [SubscribeKline, h]
  · intro h
    simp [SubscribeDepth, h]

/-- Instance of C2: the freshly constructed client, which has no callback, refuses all four
subscriptions without touching the network. -/
theorem Subscribe_callback_required_witness :
    SubscribeTicker Ref.deps Ref.fresh Ref.LTC_BTC
      = ⟨Ref.fresh, [], Exit.ret (some "please set ticker callback func")⟩ ∧
    SubscribeTrade Ref.deps Ref.fresh Ref.LTC_BTC
      = ⟨Ref.fresh, [], Exit.ret (some "please set trade callback func")⟩ ∧
    SubscribeKline Ref.deps Ref.fresh Ref.LTC_BTC 3
      = ⟨Ref.fresh, [], Exit.ret (some "place set kline callback func")⟩ ∧
    SubscribeDepth Ref.deps Ref.fresh Ref.LTC_BTC 5
      = ⟨Ref.fresh, [], Exit.ret (some "please set depth callback func")⟩ :=
  ⟨(Subscribe_callback_required Ref.deps Ref.fresh Ref.LTC_BTC 3 5).1 (by decide),
   (Subscribe_callback_required Ref.deps Ref.fresh Ref.LTC_BTC 3 5).2.1 (by decide),
   (Subscribe_callback_required Ref.deps Ref.fresh Ref.LTC_BTC 3 5).2.2.1 (by decide),
   (Subscribe_callback_required Ref.deps Ref.fresh Ref.LTC_BTC 3 5).2.2.2 (by decide)⟩

/-! ## Unresolved symbols -/

/-- C3, as stated, fails: on the reference client, whose table holds only `LTCBTC`, the trade
frame of the spec with symbol `XXXYYY` makes `handle` panic with the resolver's error; it
does not return, neither an error nor `nil`. -/
theorem handle_stray_symbol_panics :
    (getPairFromType Ref.deps Ref.client "XXXYYY").2 ≠ none ∧
    handle Ref.deps Ref.client (Except.ok Ref.strayTradeFrame)
      = ⟨Ref.client, [], Exit.panic (Panic.err "pair not support :XXXYYY")⟩ ∧
    ¬ ∃ e, (handle Ref.deps Ref.client (Except.ok Ref.strayTradeFrame)).exit = Exit.ret e := by
  have h : handle Ref.deps Ref.client (Except.ok Ref.strayTradeFrame)
      = ⟨Ref.client, [], Exit.panic (Panic.err "pair not support :XXXYYY")⟩ := by decide
  refine ⟨by decide, h, ?_⟩
  rw [h]
  rintro ⟨e, he⟩
  cases he

/-- The error of the resolver, when it has one, is `pair not support :` and the symbol. -/
theorem getPairFromType_error {F : Type} (deps : Deps F) (bnWs : BinanceWs) (s : String)
    (h : (getPairFromType deps bnWs s).2 ≠ none) :
    (getPairFromType deps bnWs s).2 = some ("pair not support :" ++ s) := by
  unfold getPairFromType at h ⊢
  rw [scan_find] at h ⊢
  cases hf : bnWs.tradeSymbols.find? (fun v => decide (v.Symbol = s)) with
  | none => rfl
  | some w =>
    rw [hf] at h
    exact absurd rfl h

/-- On a string symbol that does not resolve, the shared lines panic with the resolver's
error. -/
theorem resolveOrPanic_error {F : Type} (deps : Deps F) (bnWs : BinanceWs)
    (datamap : GoMap F) (sym : String) (hsym : datamap.index "s" = JValue.str sym)
    (herr : (getPairFromType deps bnWs sym).2 ≠ none) :
    resolveOrPanic deps bnWs datamap
      = Except.error (Panic.err ("pair not support :" ++ sym)) := by
  have he := getPairFromType_error deps bnWs sym herr
  unfold resolveOrPanic assertString
  rw [hsym, bind_ok_eq]
  rcases hg : getPairFromType deps bnWs sym with ⟨pair, err⟩
  rw [hg] at he
  simp only at he
  subst he
  rfl

/-- A frame that is well-formed but for a string symbol that does not resolve makes `handle`
panic with the resolver's error, before any callback. -/
theorem handle_unresolved_payload {F : Type} (deps : Deps F) (bnWs : BinanceWs)
    (datamap : GoMap F) (sym : String) (hsym : datamap.index "s" = JValue.str sym)
    (herr : (getPairFromType deps bnWs sym).2 ≠ none)
    (hwf : WellFormedBeforeSymbol deps datamap) :
    handle deps bnWs (Except.ok datamap)
      = ⟨bnWs, [], Exit.panic (Panic.err ("pair not support :" ++ sym))⟩ := by
  have hres := resolveOrPanic_error deps bnWs datamap sym hsym herr
  rw [handle_ok]
  rcases hwf with ⟨he, tick, htick⟩ | ⟨he, k, i, kl, hk, hi, hkl⟩ |
    ⟨he, m, tid, amount, price, date, hm, ht, hq, hp, hE⟩
  · rw [he]
    simp only [if_true]
    unfold handle.ticker
    rw [htick, bind_ok_eq, hres]
    rfl
  · rw [he]
    simp only [if_true, if_neg (by decide : ¬ "kline" = "24hrTicker")]
    unfold handle.kline assertMap
    rw [hk]
    simp only [bind_ok_eq]
    have hstr : assertString k "i" = Except.ok i := by
      unfold assertString
      rw [hi]
    rw [hstr]
    simp only [bind_ok_eq]
    rw [hkl]
    simp only [bind_ok_eq]
    rw [hres]
    rfl
  · rw [he]
    simp only [if_true, if_neg (by decide : ¬ "trade" = "24hrTicker"),
      if_neg (by decide : ¬ "trade" = "kline")]
    unfold handle.trade assertBool
    rw [hm, ht, hq, hp, hE, hres]
    rfl

/-- C3, amended: for every frame whose discriminator is ticker, kline or trade and whose symbol
field does not resolve through the symbol table, `handle` invokes no callback, leaves the
client as it was, and panics instead of returning a per-message error; when the symbol is
a string and the rest of the frame is well-formed for its kind, the panic carries the
resolver's error `pair not support :` followed by the symbol. -/
theorem handle_unresolved_symbol_panics {F : Type} (deps : Deps F) (bnWs : BinanceWs)
    (datamap : GoMap F) (t : String) (he : datamap.index "e" = JValue.str t)
    (ht : t = "24hrTicker" ∨ t = "kline" ∨ t = "trade")
    (hs : Unresolved deps bnWs datamap) :
    (handle deps bnWs (Except.ok datamap)).calls = [] ∧
    (∃ p, (handle deps bnWs (Except.ok datamap)).exit = Exit.panic p) ∧
    (handle deps bnWs (Except.ok datamap)).st = bnWs ∧
    (∀ sym, datamap.index "s" = JValue.str sym → WellFormedBeforeSymbol deps datamap →
      handle deps bnWs (Except.ok datamap)
        = ⟨bnWs, [], Exit.panic (Panic.err ("pair not support :" ++ sym))⟩) := by
  have hres := resolveOrPanic_unresolved deps bnWs datamap hs
  have hfin : ∀ x : Except Panic (Call F), (∃ p, x = Except.error p) →
      (handle.finish bnWs x).calls = [] ∧ (∃ p, (handle.finish bnWs x).exit = Exit.panic p) ∧
      (handle.finish bnWs x).st = bnWs := by
    rintro x ⟨p, rfl⟩
    exact ⟨rfl, ⟨p, rfl⟩, rfl⟩
  have hpay : ∀ sym, datamap.index "s" = JValue.str sym → WellFormedBeforeSymbol deps datamap →
      handle deps bnWs (Except.ok datamap)
        = ⟨bnWs, [], Exit.panic (Panic.err ("pair not support :" ++ sym))⟩ :=
    fun sym hsym hwf => handle_unresolved_payload deps bnWs datamap sym hsym (hs sym hsym) hwf
  have hmain : (handle deps bnWs (Except.ok datamap)).calls = [] ∧
      (∃ p, (handle deps bnWs (Except.ok datamap)).exit = Exit.panic p) ∧
      (handle deps bnWs (Except.ok datamap)).st = bnWs := by
    rw [handle_ok, he]
    rcases ht with rfl | rfl | rfl
    · simp only [if_true]
      apply hfin
      unfold handle.ticker
      exact bind_panics _ _ (fun _ => bind_panics_left _ _ hres)
    · simp only [if_true, if_neg (by decide : ¬ "kline" = "24hrTicker")]
      apply hfin
      unfold handle.kline
      exact bind_panics _ _ (fun _ => bind_panics _ _ (fun _ => bind_panics _ _ (fun _ =>
        bind_panics_left _ _ hres)))
    · simp only [if_true, if_neg (by decide : ¬ "trade" = "24hrTicker"),
        if_neg (by decide : ¬ "trade" = "kline")]
      apply hfin
      unfold handle.trade
      exact bind_panics _ _ (fun _ => bind_panics _ _ (fun _ => bind_panics _ _ (fun _ =>
        bind_panics _ _ (fun _ => bind_panics _ _ (fun _ => bind_panics_left _ _ hres)))))
  exact ⟨hmain.1, hmain.2.1, hmain.2.2, hpay⟩

/-- Instance of amended C3: the stray trade frame on the reference client invokes no callback
and panics with `pair not support :XXXYYY`. -/
theorem handle_unresolved_symbol_panics_witness :
    ((handle Ref.deps Ref.client (Except.ok Ref.strayTradeFrame)).calls = [] ∧
      (∃ p, (handle Ref.deps Ref.client (Except.ok Ref.strayTradeFrame)).exit
        = Exit.panic p) ∧
      (handle Ref.deps Ref.client (Except.ok Ref.strayTradeFrame)).st = Ref.client) ∧
    handle Ref.deps Ref.client (Except.ok Ref.strayTradeFrame)
      = ⟨Ref.client, [], Exit.panic (Panic.err ("pair not support :" ++ "XXXYYY"))⟩ :=
  have h := handle_unresolved_symbol_panics Ref.deps Ref.client Ref.strayTradeFrame "trade"
    (by rfl) (by decide)
    (by
      intro s hs
      have h : s = "XXXYYY" := by
        simpa [Ref.strayTradeFrame, GoMap.index] using hs.symm
      subst h
      decide)
  ⟨⟨h.1, h.2.1, h.2.2.1⟩,
   h.2.2.2 "XXXYYY" (by rfl)
     (Or.inr (Or.inr ⟨by rfl, false, 123, ⟨2, 0⟩, ⟨10, 0⟩, 1000, by rfl, by decide, by decide,
       by decide, by decide⟩))⟩

/-! ## The symbol resolver -/

/-- C4: for every symbol table and string `s`, `getPairFromType(s)` succeeds (returns a `nil`
error) iff some record of the table has `Symbol = s`; it then returns the pair that
`NewCurrencyPair2` builds from `BaseAsset_QuoteAsset` of the first such record; when no
record matches it returns the not-found error `pair not support :s`. It is a total
function: it always returns. -/
theorem getPairFromType_first_match {F : Type} (deps : Deps F) (bnWs : BinanceWs)
    (s : String) :
    (((getPairFromType deps bnWs s).2 = none) ↔ ∃ v ∈ bnWs.tradeSymbols, v.Symbol = s) ∧
    (∀ v, bnWs.tradeSymbols.find? (fun v => decide (v.Symbol = s)) = some v →
      getPairFromType deps bnWs s
        = (deps.NewCurrencyPair2 (v.BaseAsset ++ "_" ++ v.QuoteAsset), none)) ∧
    ((¬ ∃ v ∈ bnWs.tradeSymbols, v.Symbol = s) →
      (getPairFromType deps bnWs s).2 = some ("pair not support :" ++ s)) := by
  unfold getPairFromType
  rw [scan_find]
  cases hf : bnWs.tradeSymbols.find? (fun v => decide (v.Symbol = s)) with
  | none =>
    have hnone : ∀ v ∈ bnWs.tradeSymbols, ¬ v.Symbol = s := by
      simpa using hf
    refine ⟨⟨fun h => by simp at h, fun ⟨v, hv, hs⟩ => absurd hs (hnone v hv)⟩, ?_, ?_⟩
    · intro v hv
      cases hv
    · intro _
      rfl
  | some w =>
    have hw : w ∈ bnWs.tradeSymbols := List.mem_of_find?_eq_some hf
    have hws : w.Symbol = s := by
      simpa using List.find?_some hf
    refine ⟨⟨fun _ => ⟨w, hw, hws⟩, fun _ => rfl⟩, ?_, ?_⟩
    · intro v hv
      cases hv
      rfl
    · intro hno
      exact absurd ⟨w, hw, hws⟩ hno

/-- Instance of C4: with the entry `LTCBTC = LTC/BTC`, `LTCBTC` resolves to the pair
`(LTC, BTC)` and `XXXYYY` gives the not-found error. -/
theorem getPairFromType_first_match_witness :
    getPairFromType Ref.deps Ref.client "LTCBTC" = (⟨"LTC", "BTC"⟩, none) ∧
    (getPairFromType Ref.deps Ref.client "XXXYYY").2 = some "pair not support :XXXYYY" :=
  ⟨((getPairFromType_first_match Ref.deps Ref.client "LTCBTC").2.1 ⟨"LTCBTC", "LTC", "BTC"⟩
      (by decide)).trans (by decide),
   (getPairFromType_first_match Ref.deps Ref.client "XXXYYY").2.2 (by decide)⟩

/-! ## Frames of unknown kind -/

/-- C5: for every decoded frame whose discriminator `e` is absent, is not a string, or is a
string other than `24hrTicker`, `kline` and `trade`, `handle` returns an error and invokes
none of the four callbacks. -/
theorem handle_unknown_kind_error {F : Type} (deps : Deps F) (bnWs : BinanceWs)
    (datamap : GoMap F) (h : UnknownKind datamap) :
    (∃ e, (handle deps bnWs (Except.ok datamap)).exit = Exit.ret (some e)) ∧
    (handle deps bnWs (Except.ok datamap)).calls = [] := by
  obtain ⟨e, he⟩ := handle_unknown_run deps bnWs datamap h
  rw [he]
  exact ⟨⟨e, rfl⟩, rfl⟩

/-- Instance of C5: a frame with another discriminator, a frame without discriminator and a
frame whose discriminator is a number. -/
theorem handle_unknown_kind_error_witness :
    ((∃ e, (handle Ref.deps Ref.client (Except.ok Ref.depthFrame)).exit = Exit.ret (some e)) ∧
      (handle Ref.deps Ref.client (Except.ok Ref.depthFrame)).calls = []) ∧
    ((∃ e, (handle Ref.deps Ref.client (Except.ok [("s", JValue.str "LTCBTC")])).exit
        = Exit.ret (some e)) ∧
      (handle Ref.deps Ref.client (Except.ok [("s", JValue.str "LTCBTC")])).calls = []) ∧
    ((∃ e, (handle Ref.deps Ref.client (Except.ok [("e", Ref.num 7)])).exit
        = Exit.ret (some e)) ∧
      (handle Ref.deps Ref.client (Except.ok [("e", Ref.num 7)])).calls = []) :=
  ⟨handle_unknown_kind_error Ref.deps Ref.client Ref.depthFrame (by
      intro t ht
      have h : t = "depthUpdate" := by
        simpa [Ref.depthFrame, GoMap.index] using ht.symm
      subst h
      decide),
   handle_unknown_kind_error Ref.deps Ref.client [("s", JValue.str "LTCBTC")] (by
      intro t ht
      simp [GoMap.index] at ht),
   handle_unknown_kind_error Ref.deps Ref.client [("e", Ref.num 7)] (by
      intro t ht
      simp [GoMap.index, Ref.num] at ht)⟩

/-- C6: a frame `b` with an unrecognized discriminator leaves the client record (symbol table,
callback slots, URLs, connection) unchanged, so that processing any frame `f` right after
`b` gives the same result and the same callback invocation as processing `f` alone. -/
theorem handle_unknown_kind_no_effect {F : Type} (deps : Deps F) (bnWs : BinanceWs)
    (b : GoMap F) (hb : UnknownKind b) (f : Except String (GoMap F)) :
    (handle deps bnWs (Except.ok b)).st = bnWs ∧
    handle deps (handle deps bnWs (Except.ok b)).st f = handle deps bnWs f := by
  obtain ⟨e, he⟩ := handle_unknown_run deps bnWs b hb
  rw [he]
  exact ⟨rfl, rfl⟩

/-- Instance of C6: the trade frame of the spec, processed after a frame of unknown kind. -/
theorem handle_unknown_kind_no_effect_witness :
    (handle Ref.deps Ref.client (Except.ok Ref.depthFrame)).st = Ref.client ∧
    handle Ref.deps (handle Ref.deps Ref.client (Except.ok Ref.depthFrame)).st
        (Except.ok Ref.tradeFrame)
      = handle Ref.deps Ref.client (Except.ok Ref.tradeFrame) :=
  handle_unknown_kind_no_effect Ref.deps Ref.client Ref.depthFrame (by
      intro t ht
      have h : t = "depthUpdate" := by
        simpa [Ref.depthFrame, GoMap.index] using ht.symm
      subst h
      decide) (Except.ok Ref.tradeFrame)

/-! ## Dispatch of the three kinds -/

theorem int64_of_inRange (x : Int) (h1 : -9223372036854775808 ≤ x)
    (h2 : x < 9223372036854775808) : int64 x = x := by
  unfold int64
  omega

theorem uint64_of_inRange (x : Nat) (h : x < 18446744073709551616) : uint64 x = x := by
  unfold uint64
  omega

/-- C7: for every trade frame (`m` a boolean, `t`, `q`, `p`, `E` coercible) with a resolvable
symbol, on a client whose trade callback is registered, `handle` invokes the trade callback
exactly once and no other callback, with `Type = SELL` when `m` is false and `BUY` when `m`
is true, `Tid`, `Amount`, `Price` and `Date` the coerced `t`, `q`, `p` and `E`, and `Pair`
the resolved pair, and returns no error. `Tid` and `Date` are `int64` conversions, which
keep every value below `2^63`. -/
theorem handle_trade_dispatch {F : Type} (deps : Deps F) (bnWs : BinanceWs)
    (datamap : GoMap F) (m : Bool) (s : String) (pair : CurrencyPair) (cb : Callback)
    (tid date : Nat) (amount price : F)
    (he : datamap.index "e" = JValue.str "trade")
    (hm : datamap.index "m" = JValue.bool m)
    (hs : datamap.index "s" = JValue.str s)
    (hpair : getPairFromType deps bnWs s = (pair, none))
    (hcb : bnWs.tradeCallback = some cb)
    (ht : deps.ToUint64 (datamap.index "t") = some tid)
    (hq : deps.ToFloat64 (datamap.index "q") = some amount)
    (hp : deps.ToFloat64 (datamap.index "p") = some price)
    (hE : deps.ToUint64 (datamap.index "E") = some date) :
    handle deps bnWs (Except.ok datamap)
      = ⟨bnWs,
         [Call.trade cb
           { Tid := int64 tid
             Type_ := if m = true then TradeSide.BUY else TradeSide.SELL
             Amount := amount
             Price := price
             Date := int64 date
             Pair := pair }],
         Exit.ret none⟩ ∧
    (tid < 9223372036854775808 → int64 tid = tid) ∧
    (date < 9223372036854775808 → int64 date = date) := by
  refine ⟨?_, fun h => int64_of_inRange _ (by omega) (by omega),
    fun h => int64_of_inRange _ (by omega) (by omega)⟩
  rw [handle_ok, he]
  simp only [if_true, if_neg (by decide : ¬ "trade" = "24hrTicker"),
    if_neg (by decide : ¬ "trade" = "kline")]
  unfold handle.trade assertBool
  rw [hm, ht, hq, hp, hE, resolveOrPanic_resolved deps bnWs datamap s pair hs hpair, hcb]
  cases m <;> rfl

/-- Instance of C7: the trade frame of the spec gives
`Trade{Tid:123, Type:SELL, Amount:2, Price:10, Date:1000, Pair:(LTC,BTC)}`. -/
theorem handle_trade_dispatch_witness :
    handle Ref.deps Ref.client (Except.ok Ref.tradeFrame)
      = ⟨Ref.client,
         [Call.trade 3
           { Tid := 123
             Type_ := TradeSide.SELL
             Amount := ⟨2, 0⟩
             Price := ⟨10, 0⟩
             Date := 1000
             Pair := ⟨"LTC", "BTC"⟩ }],
         Exit.ret none⟩ :=
  (handle_trade_dispatch Ref.deps Ref.client Ref.tradeFrame false "LTCBTC" ⟨"LTC", "BTC"⟩ 3
    123 1000 ⟨2, 0⟩ ⟨10, 0⟩ (by rfl) (by rfl) (by rfl) (by decide) (by decide) (by decide)
    (by decide) (by decide) (by decide)).1.trans (by decide)

/-- C8: for every ticker frame (discriminator `24hrTicker`, fields `E`, `c`, `v`, `l`, `h`, `b`,
`a` coercible) with a resolvable symbol, on a client whose ticker callback is registered,
`handle` invokes the ticker callback exactly once and no other callback, with `Last`, `Vol`,
`Low`, `High`, `Buy`, `Sell` and `Date` the coerced `c`, `v`, `l`, `h`, `b`, `a` and `E`, and
`Pair` the pair resolved from `s`, and returns no error. `Date` is a `uint64`, which keeps
every value below `2^64`. -/
theorem handle_ticker_dispatch {F : Type} (deps : Deps F) (bnWs : BinanceWs)
    (datamap : GoMap F) (s : String) (pair : CurrencyPair) (cb : Callback)
    (date : Nat) (last vol low high buy sell : F)
    (he : datamap.index "e" = JValue.str "24hrTicker")
    (hs : datamap.index "s" = JValue.str s)
    (hpair : getPairFromType deps bnWs s = (pair, none))
    (hcb : bnWs.tickerCallback = some cb)
    (hE : deps.ToUint64 (datamap.index "E") = some date)
    (hc : deps.ToFloat64 (datamap.index "c") = some last)
    (hv : deps.ToFloat64 (datamap.index "v") = some vol)
    (hl : deps.ToFloat64 (datamap.index "l") = some low)
    (hh : deps.ToFloat64 (datamap.index "h") = some high)
    (hb : deps.ToFloat64 (datamap.index "b") = some buy)
    (ha : deps.ToFloat64 (datamap.index "a") = some sell) :
    handle deps bnWs (Except.ok datamap)
      = ⟨bnWs,
         [Call.ticker cb
           { Pair := pair
             Last := last
             Buy := buy
             Sell := sell
             High := high
             Low := low
             Vol := vol
             Date := uint64 date }],
         Exit.ret none⟩ ∧
    (date < 18446744073709551616 → uint64 date = date) := by
  refine ⟨?_, uint64_of_inRange date⟩
  rw [handle_ok, he]
  simp only [if_true]
  unfold handle.ticker parseTickerData
  rw [hE, hc, hv, hl, hh, hb, ha, resolveOrPanic_resolved deps bnWs datamap s pair hs hpair,
    hcb]
  rfl

/-- Instance of C8: the ticker frame of the spec gives `Ticker{Last:50.5, Vol:100, Low:49,
High:52, Buy:50.1, Sell:50.9, Date:1620000000000, Pair:(LTC,BTC)}`. -/
theorem handle_ticker_dispatch_witness :
    handle Ref.deps Ref.client (Except.ok Ref.tickerFrame)
      = ⟨Ref.client,
         [Call.ticker 1
           { Pair := ⟨"LTC", "BTC"⟩
             Last := ⟨505, 1⟩
             Buy := ⟨501, 1⟩
             Sell := ⟨509, 1⟩
             High := ⟨52, 0⟩
             Low := ⟨49, 0⟩
             Vol := ⟨100, 0⟩
             Date := 1620000000000 }],
         Exit.ret none⟩ :=
  (handle_ticker_dispatch Ref.deps Ref.client Ref.tickerFrame "LTCBTC" ⟨"LTC", "BTC"⟩ 1
    1620000000000 ⟨505, 1⟩ ⟨100, 0⟩ ⟨49, 0⟩ ⟨52, 0⟩ ⟨501, 1⟩ ⟨509, 1⟩
    (by rfl) (by rfl) (by decide) (by decide) (by decide) (by decide) (by decide) (by decide)
    (by decide) (by decide) (by decide)).1.trans (by decide)

/-- C9: for every kline frame with a resolvable outer symbol `s` and a nested object `k` (fields
`t`, `o`, `c`, `h`, `l`, `v` coercible) whose period code `k.i` is a key of the reverse
period table, on a client whose kline callback is registered, `handle` invokes the kline
callback exactly once and no other callback, with the internal period that the reverse
period table assigns to `k.i` and `Kline{Timestamp, Open, High, Low, Close, Vol}` the coerced
`k.t`, `k.o`, `k.h`, `k.l`, `k.c`, `k.v` and `Pair` the resolved pair, and returns no error.
`Timestamp` is an `int64` conversion, which keeps every value of that range. -/
theorem handle_kline_dispatch {F : Type} (deps : Deps F) (bnWs : BinanceWs)
    (datamap k : GoMap F) (i s : String) (period : Int) (pair : CurrencyPair) (cb : Callback)
    (t : Int) (o c h l v : F)
    (he : datamap.index "e" = JValue.str "kline")
    (hk : datamap.index "k" = JValue.object k)
    (hi : k.index "i" = JValue.str i)
    (hperiod : _INERNAL_KLINE_PERIOD_REVERTER deps i = some period)
    (hs : datamap.index "s" = JValue.str s)
    (hpair : getPairFromType deps bnWs s = (pair, none))
    (hcb : bnWs.klineCallback = some cb)
    (ht : deps.ToInt (k.index "t") = some t)
    (ho : deps.ToFloat64 (k.index "o") = some o)
    (hc : deps.ToFloat64 (k.index "c") = some c)
    (hh : deps.ToFloat64 (k.index "h") = some h)
    (hl : deps.ToFloat64 (k.index "l") = some l)
    (hv : deps.ToFloat64 (k.index "v") = some v) :
    handle deps bnWs (Except.ok datamap)
      = ⟨bnWs,
         [Call.kline cb
           { Pair := pair
             Timestamp := int64 t
             Open := o
             Close := c
             High := h
             Low := l
             Vol := v }
           period],
         Exit.ret none⟩ ∧
    (-9223372036854775808 ≤ t → t < 9223372036854775808 → int64 t = t) := by
  refine ⟨?_, int64_of_inRange t⟩
  rw [handle_ok, he]
  simp only [if_true, if_neg (by decide : ¬ "kline" = "24hrTicker")]
  unfold handle.kline parseKlineData assertMap assertString
  rw [hk]
  simp only [bind_ok_eq]
  rw [hi]
  simp only [bind_ok_eq]
  rw [hperiod, ht, ho, hc, hh, hl, hv,
    resolveOrPanic_resolved deps bnWs datamap s pair hs hpair, hcb]
  rfl

/-- Instance of C9: the kline frame of the spec is dispatched with the 5-minute period and
`Kline{Timestamp:1000, Open:1, High:2, Low:0.5, Close:1.5, Vol:10, Pair:(LTC,BTC)}`. -/
theorem handle_kline_dispatch_witness :
    handle Ref.deps Ref.client (Except.ok Ref.klineFrame)
      = ⟨Ref.client,
         [Call.kline 4
           { Pair := ⟨"LTC", "BTC"⟩
             Timestamp := 1000
             Open := ⟨1, 0⟩
             Close := ⟨15, 1⟩
             High := ⟨2, 0⟩
             Low := ⟨5, 1⟩
             Vol := ⟨10, 0⟩ }
           (Ref.deps.KLINE_PERIOD KlineConst.KLINE_PERIOD_5MIN)],
         Exit.ret none⟩ :=
  (handle_kline_dispatch Ref.deps Ref.client Ref.klineFrame Ref.klineInner "5m" "LTCBTC"
    (Ref.deps.KLINE_PERIOD KlineConst.KLINE_PERIOD_5MIN) ⟨"LTC", "BTC"⟩ 4 1000
    ⟨1, 0⟩ ⟨15, 1⟩ ⟨2, 0⟩ ⟨5, 1⟩ ⟨10, 0⟩
    (by rfl) (by rfl) (by rfl) (by decide) (by rfl) (by decide) (by decide) (by decide)
    (by decide) (by decide) (by decide) (by decide) (by decide)).1.trans (by decide)

/-! ## The fallback of `SubscribeKline` -/

theorem string_append_left_cancel (a b c : String) (h : a ++ b = a ++ c) : b = c := by
  have hd := congrArg String.data h
  simp only [String.data_append] at hd
  exact String.ext (List.append_cancel_left hd)

/-- C10, on the code: for an internal period that the forward period table does not map,
`SubscribeKline` with the kline callback set subscribes to the endpoint whose period suffix
is `M1`. That text is no key of the reverse period table, whose code for
`KLINE_PERIOD_1MIN` is `1m`, and the endpoint differs from the one with suffix `1m`. -/
theorem SubscribeKline_unmapped_period {F : Type} (deps : Deps F) (bnWs : BinanceWs)
    (pair : CurrencyPair) (period : Int)
    (hcb : bnWs.klineCallback ≠ none)
    (hp : deps._INERNAL_KLINE_PERIOD_CONVERTER period = none) :
    SubscribeKline deps bnWs pair period
      = subscribe deps bnWs
          (bnWs.baseURL ++ "/" ++ deps.ToLower (deps.ToSymbol pair "") ++ "@kline_" ++ "M1") ∧
    _INERNAL_KLINE_PERIOD_REVERTER deps "M1" = none ∧
    _INERNAL_KLINE_PERIOD_REVERTER deps "1m"
      = some (deps.KLINE_PERIOD KlineConst.KLINE_PERIOD_1MIN) ∧
    bnWs.baseURL ++ "/" ++ deps.ToLower (deps.ToSymbol pair "") ++ "@kline_" ++ "M1"
      ≠ bnWs.baseURL ++ "/" ++ deps.ToLower (deps.ToSymbol pair "") ++ "@kline_" ++ "1m" := by
  refine ⟨?_, rfl, rfl, ?_⟩
  · unfold SubscribeKline
    rw [if_neg hcb, hp]
  · intro h
    exact absurd (string_append_left_cancel _ _ _ h) (by decide)

/-- Instance of C10 on the code: on the reference client, period 0 is not mapped and the
directive sent is `ltcbtc@kline_M1`, whereas the 1-minute period sends `ltcbtc@kline_1m`. -/
theorem SubscribeKline_unmapped_period_witness :
    (SubscribeKline Ref.deps Ref.client Ref.LTC_BTC 0).net
      = [NetAction.build "wss://stream.binance.com:9443/ws", NetAction.receiveMessage,
         NetAction.subscribe "wss://stream.binance.com:9443/ws/ltcbtc@kline_M1"] ∧
    (SubscribeKline Ref.deps Ref.client Ref.LTC_BTC
        (Ref.deps.KLINE_PERIOD KlineConst.KLINE_PERIOD_1MIN)).net
      = [NetAction.build "wss://stream.binance.com:9443/ws", NetAction.receiveMessage,
         NetAction.subscribe "wss://stream.binance.com:9443/ws/ltcbtc@kline_1m"] :=
  ⟨(congrArg SubRun.net
      (SubscribeKline_unmapped_period Ref.deps Ref.client Ref.LTC_BTC 0
        (by decide) (by decide)).1).trans (by decide),
   by decide⟩

/-! ## Kline frames with an unknown period code -/

/-- The run of `handle` on a well-formed kline frame, whatever its period code: the period
handed to the callback is the index expression on the reverse period table. -/
theorem handle_kline_run {F : Type} (deps : Deps F) (bnWs : BinanceWs)
    (datamap k : GoMap F) (i s : String) (pair : CurrencyPair) (cb : Callback)
    (t : Int) (o c h l v : F)
    (he : datamap.index "e" = JValue.str "kline")
    (hk : datamap.index "k" = JValue.object k)
    (hi : k.index "i" = JValue.str i)
    (hs : datamap.index "s" = JValue.str s)
    (hpair : getPairFromType deps bnWs s = (pair, none))
    (hcb : bnWs.klineCallback = some cb)
    (ht : deps.ToInt (k.index "t") = some t)
    (ho : deps.ToFloat64 (k.index "o") = some o)
    (hc : deps.ToFloat64 (k.index "c") = some c)
    (hh : deps.ToFloat64 (k.index "h") = some h)
    (hl : deps.ToFloat64 (k.index "l") = some l)
    (hv : deps.ToFloat64 (k.index "v") = some v) :
    handle deps bnWs (Except.ok datamap)
      = ⟨bnWs,
         [Call.kline cb
           { Pair := pair
             Timestamp := int64 t
             Open := o
             Close := c
             High := h
             Low := l
             Vol := v }
           (indexInt (_INERNAL_KLINE_PERIOD_REVERTER deps i))],
         Exit.ret none⟩ := by
  rw [handle_ok, he]
  simp only [if_true, if_neg (by decide : ¬ "kline" = "24hrTicker")]
  unfold handle.kline parseKlineData assertMap assertString
  rw [hk]
  simp only [bind_ok_eq]
  rw [hi]
  simp only [bind_ok_eq]
  rw [ht, ho, hc, hh, hl, hv,
    resolveOrPanic_resolved deps bnWs datamap s pair hs hpair, hcb]
  rfl

/-- C19: for every kline frame with a resolvable symbol (and coercible `k.t`, `k.o`, `k.c`,
`k.h`, `k.l`, `k.v`, on a client whose kline callback is registered) whose period code
`k.i` is a string that is no key of the reverse period table, `handle` does not reject the
frame: it invokes the kline callback exactly once and no other callback, with period 0,
the zero value of the lookup, and returns no error. -/
theorem handle_kline_unknown_period {F : Type} (deps : Deps F) (bnWs : BinanceWs)
    (datamap k : GoMap F) (i s : String) (pair : CurrencyPair) (cb : Callback)
    (t : Int) (o c h l v : F)
    (he : datamap.index "e" = JValue.str "kline")
    (hk : datamap.index "k" = JValue.object k)
    (hi : k.index "i" = JValue.str i)
    (hperiod : _INERNAL_KLINE_PERIOD_REVERTER deps i = none)
    (hs : datamap.index "s" = JValue.str s)
    (hpair : getPairFromType deps bnWs s = (pair, none))
    (hcb : bnWs.klineCallback = some cb)
    (ht : deps.ToInt (k.index "t") = some t)
    (ho : deps.ToFloat64 (k.index "o") = some o)
    (hc : deps.ToFloat64 (k.index "c") = some c)
    (hh : deps.ToFloat64 (k.index "h") = some h)
    (hl : deps.ToFloat64 (k.index "l") = some l)
    (hv : deps.ToFloat64 (k.index "v") = some v) :
    handle deps bnWs (Except.ok datamap)
      = ⟨bnWs,
         [Call.kline cb
           { Pair := pair
             Timestamp := int64 t
             Open := o
             Close := c
             High := h
             Low := l
             Vol := v }
           0],
         Exit.ret none⟩ := by
  rw [handle_kline_run deps bnWs datamap k i s pair cb t o c h l v he hk hi hs hpair hcb
    ht ho hc hh hl hv, hperiod]
  rfl

/-- Instance of C19: the kline frame of the spec with period code `7m` is dispatched with
period 0. -/
theorem handle_kline_unknown_period_witness :
    handle Ref.deps Ref.client (Except.ok Ref.oddKlineFrame)
      = ⟨Ref.client,
         [Call.kline 4
           { Pair := ⟨"LTC", "BTC"⟩
             Timestamp := 1000
             Open := ⟨1, 0⟩
             Close := ⟨15, 1⟩
             High := ⟨2, 0⟩
             Low := ⟨5, 1⟩
             Vol := ⟨10, 0⟩ }
           0],
         Exit.ret none⟩ :=
  (handle_kline_unknown_period Ref.deps Ref.client Ref.oddKlineFrame Ref.oddKlineInner "7m"
    "LTCBTC" ⟨"LTC", "BTC"⟩ 4 1000 ⟨1, 0⟩ ⟨15, 1⟩ ⟨2, 0⟩ ⟨5, 1⟩ ⟨10, 0⟩
    (by rfl) (by rfl) (by rfl) (by decide) (by rfl) (by decide) (by decide) (by decide)
    (by decide) (by decide) (by decide) (by decide) (by decide)).trans (by decide)

/-! ## Construction and the symbol table -/

/-- C13: client construction fails, with a panic, if and only if the symbol snapshot fetch
returns an error or an empty list; otherwise it succeeds, and on success the symbol table
of the client is exactly the fetched list, which is not empty. -/
theorem NewBinanceWs_fails_iff (r : List TradeSymbol × Option String) :
    ((∃ p, NewBinanceWs r = Except.error p) ↔ (r.2 ≠ none ∨ r.1 = [])) ∧
    ((r.2 = none ∧ r.1 ≠ []) →
      ∃ bnWs, NewBinanceWs r = Except.ok bnWs ∧ bnWs.tradeSymbols = r.1) ∧
    (∀ bnWs, NewBinanceWs r = Except.ok bnWs → bnWs.tradeSymbols = r.1 ∧ r.1 ≠ []) := by
  unfold NewBinanceWs
  dsimp only
  by_cases hc : r.1.length = 0 ∨ r.2 ≠ none
  · rw [if_pos hc]
    have hbad : r.2 ≠ none ∨ r.1 = [] := by
      rcases hc with h | h
      · exact Or.inr (List.length_eq_zero.mp h)
      · exact Or.inl h
    refine ⟨⟨fun _ => hbad, fun _ => ⟨_, rfl⟩⟩, ?_, ?_⟩
    · rintro ⟨h1, h2⟩
      rcases hbad with h | h
      · exact absurd h1 h
      · exact absurd h h2
    · intro bnWs h
      cases h
  · rw [if_neg hc]
    have hgood : r.2 = none ∧ r.1 ≠ [] := by
      constructor
      · by_contra h
        exact hc (Or.inr h)
      · intro h
        exact hc (Or.inl (by rw [h]; rfl))
    refine ⟨⟨fun ⟨p, hp⟩ => (by cases hp), fun hbad => ?_⟩, fun _ => ⟨_, rfl, rfl⟩, ?_⟩
    · rcases hbad with h | h
      · exact absurd hgood.1 h
      · exact absurd h hgood.2
    · intro bnWs h
      cases h
      exact ⟨rfl, hgood.2⟩

/-- Instance of C13: the snapshot `[LTCBTC]` without error constructs a client with that
table; the same snapshot with an error, and the empty snapshot, make construction panic. -/
theorem NewBinanceWs_fails_iff_witness :
    (∃ bnWs, NewBinanceWs ([⟨"LTCBTC", "LTC", "BTC"⟩], none) = Except.ok bnWs ∧
      bnWs.tradeSymbols = [⟨"LTCBTC", "LTC", "BTC"⟩]) ∧
    (∃ p, NewBinanceWs ([⟨"LTCBTC", "LTC", "BTC"⟩], some "timeout") = Except.error p) ∧
    (∃ p, NewBinanceWs ([], none) = Except.error p) :=
  ⟨(NewBinanceWs_fails_iff ([⟨"LTCBTC", "LTC", "BTC"⟩], none)).2.1 ⟨rfl, by decide⟩,
   (NewBinanceWs_fails_iff ([⟨"LTCBTC", "LTC", "BTC"⟩], some "timeout")).1.mpr
     (Or.inl (by decide)),
   (NewBinanceWs_fails_iff ([], none)).1.mpr (Or.inr rfl)⟩

theorem subscribe_tradeSymbols {F : Type} (deps : Deps F) (bnWs : BinanceWs) (sub : String) :
    (subscribe deps bnWs sub).st.tradeSymbols = bnWs.tradeSymbols := by
  have hc : (connectWs bnWs).1.tradeSymbols = bnWs.tradeSymbols := by
    unfold connectWs
    split_ifs <;> rfl
  unfold subscribe
  dsimp only
  split <;> exact hc

/-- No call of the public surface writes the symbol table. -/
theorem apply_tradeSymbols {F : Type} (deps : Deps F) (bnWs : BinanceWs) (op : Op F) :
    (op.apply deps bnWs).tradeSymbols = bnWs.tradeSymbols := by
  cases op with
  | SetBaseUrl u => rfl
  | SetCombinedBaseURL u => rfl
  | SetCallbacks t d tr k => rfl
  | SubscribeTicker pair =>
    show (SubscribeTicker deps bnWs pair).st.tradeSymbols = _
    unfold SubscribeTicker
    split_ifs <;> first | rfl | exact subscribe_tradeSymbols _ _ _
  | SubscribeTrade pair =>
    show (SubscribeTrade deps bnWs pair).st.tradeSymbols = _
    unfold SubscribeTrade
    split_ifs <;> first | rfl | exact subscribe_tradeSymbols _ _ _
  | SubscribeKline pair period =>
    show (SubscribeKline deps bnWs pair period).st.tradeSymbols = _
    unfold SubscribeKline
    split_ifs <;> first | rfl | exact subscribe_tradeSymbols _ _ _
  | SubscribeDepth pair size =>
    show (SubscribeDepth deps bnWs pair size).st.tradeSymbols = _
    unfold SubscribeDepth
    split_ifs <;> first | rfl | exact subscribe_tradeSymbols _ _ _
  | handle unmarshal =>
    show (handle deps bnWs unmarshal).st.tradeSymbols = _
    rw [handle_st]

theorem reach_tradeSymbols {F : Type} (deps : Deps F) (ops : List (Op F)) :
    ∀ bnWs : BinanceWs, (reach deps bnWs ops).tradeSymbols = bnWs.tradeSymbols := by
  induction ops with
  | nil => intro bnWs; rfl
  | cons op rest ih =>
    intro bnWs
    unfold reach
    rw [List.foldl_cons]
    exact (ih (op.apply deps bnWs)).trans (apply_tradeSymbols deps bnWs op)

/-- C18: in every state reachable from a successful construction by any sequence of
`SetBaseUrl`, `SetCombinedBaseURL`, `SetCallbacks`, `SubscribeTicker`, `SubscribeTrade`,
`SubscribeKline`, `SubscribeDepth` and `handle`, the symbol table equals the list fetched
at construction and is non-empty. -/
theorem tradeSymbols_immutable {F : Type} (deps : Deps F)
    (r : List TradeSymbol × Option String) (bnWs : BinanceWs)
    (hnew : NewBinanceWs r = Except.ok bnWs) (ops : List (Op F)) :
    (reach deps bnWs ops).tradeSymbols = r.1 ∧ (reach deps bnWs ops).tradeSymbols ≠ [] := by
  have hsym : bnWs.tradeSymbols = r.1 ∧ r.1 ≠ [] := by
    unfold NewBinanceWs at hnew
    dsimp only at hnew
    split_ifs at hnew with hc
    cases hnew
    refine ⟨rfl, fun h => hc (Or.inl ?_)⟩
    show r.1.length = 0
    rw [h]
    rfl
  rw [reach_tradeSymbols, hsym.1]
  exact ⟨rfl, hsym.2⟩

/-- Instance of C18: the table of the constructed reference client after setters,
subscriptions and frames. -/
theorem tradeSymbols_immutable_witness :
    (reach Ref.deps Ref.fresh
        [Op.SetCallbacks (some 1) (some 2) (some 3) (some 4), Op.SetBaseUrl "wss://other/ws",
         Op.SubscribeTicker Ref.LTC_BTC, Op.handle (Except.ok Ref.tradeFrame),
         Op.SubscribeDepth Ref.LTC_BTC 5, Op.SetCombinedBaseURL "wss://other/stream",
         Op.SubscribeKline Ref.LTC_BTC 3, Op.SubscribeTrade Ref.LTC_BTC]).tradeSymbols
      = [⟨"LTCBTC", "LTC", "BTC"⟩] ∧
    (reach Ref.deps Ref.fresh
        [Op.SetCallbacks (some 1) (some 2) (some 3) (some 4), Op.SetBaseUrl "wss://other/ws",
         Op.SubscribeTicker Ref.LTC_BTC, Op.handle (Except.ok Ref.tradeFrame),
         Op.SubscribeDepth Ref.LTC_BTC 5, Op.SetCombinedBaseURL "wss://other/stream",
         Op.SubscribeKline Ref.LTC_BTC 3, Op.SubscribeTrade Ref.LTC_BTC]).tradeSymbols
      ≠ [] :=
  tradeSymbols_immutable Ref.deps ([⟨"LTCBTC", "LTC", "BTC"⟩], none) Ref.fresh rfl _

/-! ## Frames with missing or wrongly typed fields -/

theorem assertString_panics {F : Type} (m : GoMap F) (key : String)
    (h : NotString (m.index key)) : ∃ p, assertString m key = Except.error p := by
  unfold assertString
  split
  · next x hx => exact absurd hx (h x)
  · exact ⟨_, rfl⟩

theorem assertBool_panics {F : Type} (m : GoMap F) (key : String)
    (h : NotBool (m.index key)) : ∃ p, assertBool m key = Except.error p := by
  unfold assertBool
  split
  · next b hb => exact absurd hb (h b)
  · exact ⟨_, rfl⟩

theorem assertMap_panics {F : Type} (m : GoMap F) (key : String)
    (h : NotObject (m.index key)) : ∃ p, assertMap m key = Except.error p := by
  unfold assertMap
  split
  · next kvs hk => exact absurd hk (h kvs)
  · exact ⟨_, rfl⟩

theorem resolveOrPanic_notString {F : Type} (deps : Deps F) (bnWs : BinanceWs)
    (datamap : GoMap F) (h : NotString (datamap.index "s")) :
    ∃ p, resolveOrPanic deps bnWs datamap = Except.error p := by
  unfold resolveOrPanic
  exact bind_panics_left _ _ (assertString_panics datamap "s" h)

theorem finish_panics {F : Type} (bnWs : BinanceWs) (x : Except Panic (Call F))
    (h : ∃ p, x = Except.error p) :
    (handle.finish bnWs x).calls = [] ∧ ∃ p, (handle.finish bnWs x).exit = Exit.panic p := by
  obtain ⟨p, rfl⟩ := h
  exact ⟨rfl, p, rfl⟩

/-- C16, as stated, fails: on the reference client the frame with discriminator `trade`, a
resolvable symbol and no field `m` makes `handle` panic on the type assertion; it does
not return. -/
theorem handle_missing_field_panics :
    handle Ref.deps Ref.client
        (Except.ok [("e", JValue.str "trade"), ("s", JValue.str "LTCBTC")])
      = ⟨Ref.client, [], Exit.panic (Panic.typeAssertion "m")⟩ ∧
    ¬ ∃ e, (handle Ref.deps Ref.client
        (Except.ok [("e", JValue.str "trade"), ("s", JValue.str "LTCBTC")])).exit
      = Exit.ret e := by
  have h : handle Ref.deps Ref.client
        (Except.ok [("e", JValue.str "trade"), ("s", JValue.str "LTCBTC")])
      = ⟨Ref.client, [], Exit.panic (Panic.typeAssertion "m")⟩ := by decide
  refine ⟨h, ?_⟩
  rw [h]
  rintro ⟨e, he⟩
  cases he

/-- C16, amended: `handle` returns a per-message error, without a panic and without a
callback, for every message that does not decode and every decoded frame whose
discriminator is absent, not a string or unknown; for a decoded frame with a known
discriminator and a missing or wrongly typed field (`s` absent or not a string, `m` absent
or not a boolean, `k` absent or not an object, `k.i` absent or not a string) it invokes no
callback and panics. -/
theorem handle_crash_profile {F : Type} (deps : Deps F) (bnWs : BinanceWs) :
    (∀ err, handle deps bnWs (Except.error err) = ⟨bnWs, [], Exit.ret (some err)⟩) ∧
    (∀ datamap : GoMap F, UnknownKind datamap →
      ∃ e, handle deps bnWs (Except.ok datamap) = ⟨bnWs, [], Exit.ret (some e)⟩) ∧
    (∀ datamap : GoMap F, Malformed datamap →
      (handle deps bnWs (Except.ok datamap)).calls = [] ∧
      ∃ p, (handle deps bnWs (Except.ok datamap)).exit = Exit.panic p) := by
  refine ⟨fun _ => rfl, fun datamap h => handle_unknown_run deps bnWs datamap h, ?_⟩
  intro datamap h
  rw [handle_ok]
  rcases h with ⟨he, hs⟩ | ⟨he, hk⟩ | ⟨he, hm⟩
  · rw [he]
    simp only [if_true]
    apply finish_panics
    unfold handle.ticker
    exact bind_panics _ _ (fun _ => bind_panics_left _ _
      (resolveOrPanic_notString deps bnWs datamap hs))
  · rw [he]
    simp only [if_true, if_neg (by decide : ¬ "kline" = "24hrTicker")]
    apply finish_panics
    unfold handle.kline
    rcases hk with hk | ⟨k, hk, hi⟩ | hs
    · exact bind_panics_left _ _ (assertMap_panics datamap "k" hk)
    · have hmap : assertMap datamap "k" = Except.ok k := by
        unfold assertMap
        rw [hk]
      rw [hmap, bind_ok_eq]
      exact bind_panics_left _ _ (assertString_panics k "i" hi)
    · exact bind_panics _ _ (fun _ => bind_panics _ _ (fun _ => bind_panics _ _ (fun _ =>
        bind_panics_left _ _ (resolveOrPanic_notString deps bnWs datamap hs))))
  · rw [he]
    simp only [if_true, if_neg (by decide : ¬ "trade" = "24hrTicker"),
      if_neg (by decide : ¬ "trade" = "kline")]
    apply finish_panics
    unfold handle.trade
    rcases hm with hm | hs
    · exact bind_panics_left _ _ (assertBool_panics datamap "m" hm)
    · exact bind_panics _ _ (fun _ => bind_panics _ _ (fun _ => bind_panics _ _ (fun _ =>
        bind_panics _ _ (fun _ => bind_panics _ _ (fun _ => bind_panics_left _ _
          (resolveOrPanic_notString deps bnWs datamap hs))))))

/-- Instance of amended C16: a frame of unknown kind is answered with an error, and the
trade frame without `m` and the kline frame without `k` panic without a callback. -/
theorem handle_crash_profile_witness :
    (∃ e, handle Ref.deps Ref.client (Except.ok Ref.depthFrame)
      = ⟨Ref.client, [], Exit.ret (some e)⟩) ∧
    ((handle Ref.deps Ref.client
        (Except.ok [("e", JValue.str "trade"), ("s", JValue.str "LTCBTC")])).calls = [] ∧
      ∃ p, (handle Ref.deps Ref.client
        (Except.ok [("e", JValue.str "trade"), ("s", JValue.str "LTCBTC")])).exit
          = Exit.panic p) ∧
    ((handle Ref.deps Ref.client
        (Except.ok [("e", JValue.str "kline"), ("s", JValue.str "LTCBTC")])).calls = [] ∧
      ∃ p, (handle Ref.deps Ref.client
        (Except.ok [("e", JValue.str "kline"), ("s", JValue.str "LTCBTC")])).exit
          = Exit.panic p) :=
  ⟨(handle_crash_profile Ref.deps Ref.client).2.1 Ref.depthFrame (by
      intro t ht
      have h : t = "depthUpdate" := by
        simpa [Ref.depthFrame, GoMap.index] using ht.symm
      subst h
      decide),
   (handle_crash_profile Ref.deps Ref.client).2.2
      [("e", JValue.str "trade"), ("s", JValue.str "LTCBTC")]
      (Or.inr (Or.inr ⟨rfl, Or.inl (by
        intro b hb
        simp [GoMap.index] at hb)⟩)),
   (handle_crash_profile Ref.deps Ref.client).2.2
      [("e", JValue.str "kline"), ("s", JValue.str "LTCBTC")]
      (Or.inr (Or.inl ⟨rfl, Or.inl (by
        intro kvs hk
        simp [GoMap.index] at hk)⟩))⟩

/-! ## Endpoints -/

theorem subscribe_fresh {F : Type} (deps : Deps F) (bnWs : BinanceWs) (sub : String)
    (ho : bnWs.Once = false) :
    subscribe deps bnWs sub
      = ⟨{ bnWs with Once := true, wsConn := some ⟨bnWs.WsBuilder.wsUrl, [sub]⟩ },
         [NetAction.build bnWs.WsBuilder.wsUrl, NetAction.receiveMessage,
          NetAction.subscribe sub],
         Exit.ret (deps.Subscribe ⟨bnWs.WsBuilder.wsUrl, []⟩ sub)⟩ := by
  unfold subscribe connectWs
  simp [ho, WsBuilder.Build]

theorem depth_endpoint_ne (x n : String) : x ++ "@depth<" ++ n ++ ">" ≠ x ++ "@depth" ++ n := by
  intro h
  have hl := congrArg String.length h
  simp only [String.length_append] at hl
  have h1 : "@depth<".length = 7 := rfl
  have h2 : "@depth".length = 6 := rfl
  have h3 : ">".length = 1 := rfl
  omega

/-- C12, on the code: with the callback of the channel set, the endpoint handed to `subscribe`
is `baseURL + "/" + lowercase(pair symbol)` followed by `@ticker`, by `@trade`, or by
`@kline_` and the period code as the forward period table gives it; only the pair symbol
goes through the lower-casing. For depth with a size among 5, 10 and 20 the endpoint ends
in `@depth<`, the decimal size and `>`: the size stands between angle brackets, and the
endpoint is not `...@depth` followed directly by the size. -/
theorem Subscribe_endpoint_format {F : Type} (deps : Deps F) (bnWs : BinanceWs)
    (pair : CurrencyPair) (period size : Int) (code : String) :
    (bnWs.tickerCallback ≠ none →
      SubscribeTicker deps bnWs pair = subscribe deps bnWs
        (bnWs.baseURL ++ "/" ++ deps.ToLower (deps.ToSymbol pair "") ++ "@ticker")) ∧
    (bnWs.tradeCallback ≠ none →
      SubscribeTrade deps bnWs pair = subscribe deps bnWs
        (bnWs.baseURL ++ "/" ++ deps.ToLower (deps.ToSymbol pair "") ++ "@trade")) ∧
    (bnWs.klineCallback ≠ none → deps._INERNAL_KLINE_PERIOD_CONVERTER period = some code →
      SubscribeKline deps bnWs pair period = subscribe deps bnWs
        (bnWs.baseURL ++ "/" ++ deps.ToLower (deps.ToSymbol pair "") ++ "@kline_" ++ code)) ∧
    (bnWs.depthCallback ≠ none → (size = 5 ∨ size = 10 ∨ size = 20) →
      SubscribeDepth deps bnWs pair size = subscribe deps bnWs
        (bnWs.baseURL ++ "/" ++ deps.ToLower (deps.ToSymbol pair "") ++ "@depth<"
          ++ toString size ++ ">") ∧
      bnWs.baseURL ++ "/" ++ deps.ToLower (deps.ToSymbol pair "") ++ "@depth<"
          ++ toString size ++ ">"
        ≠ bnWs.baseURL ++ "/" ++ deps.ToLower (deps.ToSymbol pair "") ++ "@depth"
          ++ toString size) := by
  refine ⟨?_, ?_, ?_, ?_⟩
  · intro h
    unfold SubscribeTicker
    rw [if_neg h]
  · intro h
    unfold SubscribeTrade
    rw [if_neg h]
  · intro h hc
    unfold SubscribeKline
    rw [if_neg h, hc]
  · intro h hsize
    have hval : ¬ (size ≠ 5 ∧ size ≠ 10 ∧ size ≠ 20) := by omega
    refine ⟨?_, depth_endpoint_ne _ _⟩
    unfold SubscribeDepth
    rw [if_neg h, if_neg hval]

/-- Instance of C12 on the code: the directives that the reference client sends for the four
channels of LTC/BTC; the depth directive is `ltcbtc@depth<5>`, the monthly kline keeps
its capital `M`. -/
theorem Subscribe_endpoint_format_witness :
    (SubscribeDepth Ref.deps Ref.client Ref.LTC_BTC 5).net
      = [NetAction.build "wss://stream.binance.com:9443/ws", NetAction.receiveMessage,
         NetAction.subscribe "wss://stream.binance.com:9443/ws/ltcbtc@depth<5>"] ∧
    (SubscribeTicker Ref.deps Ref.client Ref.LTC_BTC).net
      = [NetAction.build "wss://stream.binance.com:9443/ws", NetAction.receiveMessage,
         NetAction.subscribe "wss://stream.binance.com:9443/ws/ltcbtc@ticker"] ∧
    (SubscribeTrade Ref.deps Ref.client Ref.LTC_BTC).net
      = [NetAction.build "wss://stream.binance.com:9443/ws", NetAction.receiveMessage,
         NetAction.subscribe "wss://stream.binance.com:9443/ws/ltcbtc@trade"] ∧
    (SubscribeKline Ref.deps Ref.client Ref.LTC_BTC
        (Ref.deps.KLINE_PERIOD KlineConst.KLINE_PERIOD_1MONTH)).net
      = [NetAction.build "wss://stream.binance.com:9443/ws", NetAction.receiveMessage,
         NetAction.subscribe "wss://stream.binance.com:9443/ws/ltcbtc@kline_1M"] :=
  ⟨(congrArg SubRun.net ((Subscribe_endpoint_format Ref.deps Ref.client Ref.LTC_BTC 15 5
      "1M").2.2.2 (by decide) (by decide)).1).trans (by decide),
   (congrArg SubRun.net ((Subscribe_endpoint_format Ref.deps Ref.client Ref.LTC_BTC 15 5
      "1M").1 (by decide))).trans (by decide),
   (congrArg SubRun.net ((Subscribe_endpoint_format Ref.deps Ref.client Ref.LTC_BTC 15 5
      "1M").2.1 (by decide))).trans (by decide),
   (congrArg SubRun.net ((Subscribe_endpoint_format Ref.deps Ref.client Ref.LTC_BTC 15 5
      "1M").2.2.1 (by decide) (by decide))).trans (by decide)⟩

/-! ## The base URL and the socket -/

/-- C17, on the code: on a client that was constructed, given its callbacks and then given the
base URL `u` by `SetBaseUrl`, the first `SubscribeTicker` builds the socket from the
builder, whose URL is still the one set at construction,
`wss://stream.binance.com:9443/ws`, whatever `u` is; the endpoint it sends is prefixed
by `u`. -/
theorem SetBaseUrl_dial_url {F : Type} (deps : Deps F) (r : List TradeSymbol × Option String)
    (b0 : BinanceWs) (cb : Callback) (d tr k : Option Callback) (u : String)
    (pair : CurrencyPair) (hnew : NewBinanceWs r = Except.ok b0) :
    (SetBaseUrl (SetCallbacks b0 (some cb) d tr k) u).baseURL = u ∧
    (SetBaseUrl (SetCallbacks b0 (some cb) d tr k) u).WsBuilder.wsUrl
      = "wss://stream.binance.com:9443/ws" ∧
    (SubscribeTicker deps (SetBaseUrl (SetCallbacks b0 (some cb) d tr k) u) pair).net
      = [NetAction.build "wss://stream.binance.com:9443/ws", NetAction.receiveMessage,
         NetAction.subscribe (u ++ "/" ++ deps.ToLower (deps.ToSymbol pair "") ++ "@ticker")] ∧
    (SubscribeTicker deps (SetBaseUrl (SetCallbacks b0 (some cb) d tr k) u) pair).st.wsConn
      = some ⟨"wss://stream.binance.com:9443/ws",
          [u ++ "/" ++ deps.ToLower (deps.ToSymbol pair "") ++ "@ticker"]⟩ := by
  unfold NewBinanceWs at hnew
  dsimp only at hnew
  split_ifs at hnew
  cases hnew
  refine ⟨rfl, rfl, ?_, ?_⟩
  · unfold SubscribeTicker
    rw [if_neg (by simp [SetBaseUrl, SetCallbacks])]
    dsimp only
    rw [subscribe_fresh _ _ _ rfl]
    rfl
  · unfold SubscribeTicker
    rw [if_neg (by simp [SetBaseUrl, SetCallbacks])]
    dsimp only
    rw [subscribe_fresh _ _ _ rfl]
    rfl

/-- Instance of C17 on the code: the reference client with base URL `wss://testnet.example/ws`
dials `wss://stream.binance.com:9443/ws`, which is another URL. -/
theorem SetBaseUrl_dial_url_witness :
    (SubscribeTicker Ref.deps (SetBaseUrl Ref.client "wss://testnet.example/ws")
        Ref.LTC_BTC).net
      = [NetAction.build "wss://stream.binance.com:9443/ws", NetAction.receiveMessage,
         NetAction.subscribe "wss://testnet.example/ws/ltcbtc@ticker"] ∧
    "wss://stream.binance.com:9443/ws" ≠ "wss://testnet.example/ws" :=
  ⟨((SetBaseUrl_dial_url Ref.deps ([⟨"LTCBTC", "LTC", "BTC"⟩], none) Ref.fresh 1 (some 2)
      (some 3) (some 4) "wss://testnet.example/ws" Ref.LTC_BTC rfl).2.2.1).trans (by decide),
   by decide⟩

/-! ## The period table -/

theorem lookup_mem {β : Type} (l : List (String × β)) (k : String) (v : β)
    (h : l.lookup k = some v) : (k, v) ∈ l := by
  induction l with
  | nil => simp [List.lookup] at h
  | cons e rest ih =>
    obtain ⟨k1, v1⟩ := e
    by_cases hk : k = k1
    · subst hk
      simp [List.lookup] at h
      subst h
      exact List.mem_cons_self _ _
    · have hne : (k == k1) = false := by simpa using hk
      simp only [List.lookup, hne] at h
      exact List.mem_cons_of_mem _ (ih h)

theorem reverter_some {F : Type} (deps : Deps F) (code : String) (p : Int)
    (h : _INERNAL_KLINE_PERIOD_REVERTER deps code = some p) :
    ∃ kc, (code, kc) ∈ reverterEntries ∧ p = deps.KLINE_PERIOD kc := by
  unfold _INERNAL_KLINE_PERIOD_REVERTER at h
  cases hl : reverterEntries.lookup code with
  | none => rw [hl] at h; cases h
  | some kc =>
    rw [hl] at h
    simp only [Option.map_some'] at h
    cases h
    exact ⟨kc, lookup_mem _ _ _ hl, rfl⟩

/-- C11: the reverse period table has exactly the fifteen codes 1m, 3m, 5m, 15m, 30m, 1h, 2h,
4h, 6h, 8h, 12h, 1d, 3d, 1w, 1M, under fifteen different constants; whenever the constants
have pairwise different values no two codes share an internal period, as is the case for
the period enumeration; and each code, mapped to its internal period and back through the
forward period table, gives the original code. The enumeration and the forward table are
the ones modelled from the spec. -/
theorem period_table_bijection :
    reverterEntries.map Prod.fst
      = ["1m", "3m", "5m", "15m", "30m", "1h", "2h", "4h", "6h", "8h", "12h", "1d", "3d",
         "1w", "1M"] ∧
    (reverterEntries.map Prod.snd).Nodup ∧
    (reverterEntries.map (fun e => Ref.deps.KLINE_PERIOD e.2)).Nodup ∧
    (reverterEntries.map (fun e => Ref.deps.KLINE_PERIOD e.2)).length = 15 ∧
    (∀ (F : Type) (deps : Deps F), Function.Injective deps.KLINE_PERIOD →
      ∀ c1 c2 p, _INERNAL_KLINE_PERIOD_REVERTER deps c1 = some p →
        _INERNAL_KLINE_PERIOD_REVERTER deps c2 = some p → c1 = c2) ∧
    (∀ code p, _INERNAL_KLINE_PERIOD_REVERTER Ref.deps code = some p →
      Ref.deps._INERNAL_KLINE_PERIOD_CONVERTER p = some code) := by
  refine ⟨by decide, by decide, by decide, by decide, ?_, ?_⟩
  · intro F deps hinj c1 c2 p h1 h2
    obtain ⟨k1, hm1, hp1⟩ := reverter_some deps c1 p h1
    obtain ⟨k2, hm2, hp2⟩ := reverter_some deps c2 p h2
    have hk : k1 = k2 := hinj (hp1.symm.trans hp2)
    subst hk
    have hall : ∀ e1 ∈ reverterEntries, ∀ e2 ∈ reverterEntries, e1.2 = e2.2 → e1.1 = e2.1 := by
      decide
    exact hall _ hm1 _ hm2 rfl
  · intro code p h
    obtain ⟨kc, hm, hp⟩ := reverter_some Ref.deps code p h
    subst hp
    have hall : ∀ e ∈ reverterEntries,
        Ref.deps._INERNAL_KLINE_PERIOD_CONVERTER (Ref.deps.KLINE_PERIOD e.2) = some e.1 := by
      decide
    exact hall _ hm

/-- Instance of C11: the code `5m` goes to the 5-minute period and comes back as `5m`, and the
code `1M` goes to the 1-month period and comes back as `1M`. -/
theorem period_table_bijection_witness :
    Ref.deps._INERNAL_KLINE_PERIOD_CONVERTER
        (Ref.deps.KLINE_PERIOD KlineConst.KLINE_PERIOD_5MIN) = some "5m" ∧
    Ref.deps._INERNAL_KLINE_PERIOD_CONVERTER
        (Ref.deps.KLINE_PERIOD KlineConst.KLINE_PERIOD_1MONTH) = some "1M" :=
  ⟨period_table_bijection.2.2.2.2.2 "5m" _ (by decide),
   period_table_bijection.2.2.2.2.2 "1M" _ (by decide)⟩

/-! ## Sequences of subscribe calls -/

/-- A call that fails validation returns an error and does nothing else. -/
theorem run_invalid {F : Type} (deps : Deps F) (bnWs : BinanceWs) (c : SubCall)
    (h : c.valid bnWs = false) : ∃ e, c.run deps bnWs = ⟨bnWs, [], Exit.ret (some e)⟩ := by
  cases c with
  | ticker pair =>
    have hcb : bnWs.tickerCallback = none := by simpa [SubCall.valid] using h
    exact ⟨"please set ticker callback func", by simp [SubCall.run, SubscribeTicker, hcb]⟩
  | trade pair =>
    have hcb : bnWs.tradeCallback = none := by simpa [SubCall.valid] using h
    exact ⟨"please set trade callback func", by simp [SubCall.run, SubscribeTrade, hcb]⟩
  | kline pair period =>
    have hcb : bnWs.klineCallback = none := by simpa [SubCall.valid] using h
    exact ⟨"place set kline callback func", by simp [SubCall.run, SubscribeKline, hcb]⟩
  | depth pair size =>
    by_cases hcb : bnWs.depthCallback = none
    · exact ⟨"please set depth callback func", by simp [SubCall.run, SubscribeDepth, hcb]⟩
    · have hsz : size ≠ 5 ∧ size ≠ 10 ∧ size ≠ 20 := by
        simp only [SubCall.valid, Bool.and_eq_false_iff, decide_eq_false_iff_not] at h
        rcases h with h | h
        · exact absurd hcb h
        · omega
      exact ⟨_, by
        show SubscribeDepth deps bnWs pair size = _
        unfold SubscribeDepth
        rw [if_neg hcb, if_pos hsz]⟩

/-- A call that passes validation is the call of `subscribe` on its endpoint. -/
theorem run_valid {F : Type} (deps : Deps F) (bnWs : BinanceWs) (c : SubCall)
    (h : c.valid bnWs = true) : ∃ sub, c.run deps bnWs = subscribe deps bnWs sub := by
  cases c with
  | ticker pair =>
    have hcb : bnWs.tickerCallback ≠ none := by simpa [SubCall.valid] using h
    exact ⟨_, by
      show SubscribeTicker deps bnWs pair = _
      unfold SubscribeTicker
      rw [if_neg hcb]⟩
  | trade pair =>
    have hcb : bnWs.tradeCallback ≠ none := by simpa [SubCall.valid] using h
    exact ⟨_, by
      show SubscribeTrade deps bnWs pair = _
      unfold SubscribeTrade
      rw [if_neg hcb]⟩
  | kline pair period =>
    have hcb : bnWs.klineCallback ≠ none := by simpa [SubCall.valid] using h
    exact ⟨_, by
      show SubscribeKline deps bnWs pair period = _
      unfold SubscribeKline
      rw [if_neg hcb]⟩
  | depth pair size =>
    simp only [SubCall.valid, Bool.and_eq_true, decide_eq_true_eq] at h
    have hval : ¬ (size ≠ 5 ∧ size ≠ 10 ∧ size ≠ 20) := by omega
    exact ⟨_, by
      show SubscribeDepth deps bnWs pair size = _
      unfold SubscribeDepth
      rw [if_neg h.1, if_neg hval]⟩

/-- Validation reads the callback slots only. -/
theorem valid_congr (a b : BinanceWs) (c : SubCall)
    (h1 : a.tickerCallback = b.tickerCallback) (h2 : a.depthCallback = b.depthCallback)
    (h3 : a.tradeCallback = b.tradeCallback) (h4 : a.klineCallback = b.klineCallback) :
    c.valid a = c.valid b := by
  cases c <;> simp [SubCall.valid, h1, h2, h3, h4]

theorem subscribe_connected {F : Type} (deps : Deps F) (bnWs : BinanceWs) (conn : WsConn)
    (sub : String) (ho : bnWs.Once = true) (hc : bnWs.wsConn = some conn) :
    subscribe deps bnWs sub
      = ⟨{ bnWs with wsConn := some ⟨conn.wsUrl, conn.sent ++ [sub]⟩ },
         [NetAction.subscribe sub], Exit.ret (deps.Subscribe conn sub)⟩ := by
  unfold subscribe connectWs
  simp [ho, hc]

theorem runCalls_cons_ret {F : Type} (deps : Deps F) (bnWs : BinanceWs) (c : SubCall)
    (rest : List SubCall) (e : Option String) (h : (c.run deps bnWs).exit = Exit.ret e) :
    runCalls deps bnWs (c :: rest)
      = ((runCalls deps (c.run deps bnWs).st rest).1,
         (c.run deps bnWs).net ++ (runCalls deps (c.run deps bnWs).st rest).2) := by
  rw [runCalls, h]

/-- On a connected client a sequence of calls only sends directives, one for each call that
passes validation, all to the connection in place. -/
theorem runCalls_connected {F : Type} (deps : Deps F) (calls : List SubCall) :
    ∀ (bnWs : BinanceWs) (conn : WsConn), bnWs.Once = true → bnWs.wsConn = some conn →
      ∃ subs : List String, subs.length = (calls.filter (SubCall.valid bnWs)).length ∧
        runCalls deps bnWs calls
          = ({ bnWs with wsConn := some ⟨conn.wsUrl, conn.sent ++ subs⟩ },
             subs.map NetAction.subscribe) := by
  induction calls with
  | nil =>
    intro bnWs conn _ hc
    refine ⟨[], rfl, ?_⟩
    cases bnWs
    cases conn
    simp only at hc
    simp [runCalls, hc]
  | cons c rest ih =>
    intro bnWs conn ho hc
    cases hv : c.valid bnWs with
    | false =>
      obtain ⟨e, he⟩ := run_invalid deps bnWs c hv
      obtain ⟨subs, hlen, hrun⟩ := ih bnWs conn ho hc
      refine ⟨subs, ?_, ?_⟩
      · rw [List.filter_cons_of_neg (by simp [hv])]
        exact hlen
      · rw [runCalls_cons_ret deps bnWs c rest (some e) (by rw [he]), he]
        simp [hrun]
    | true =>
      obtain ⟨sub, hs⟩ := run_valid deps bnWs c hv
      rw [subscribe_connected deps bnWs conn sub ho hc] at hs
      obtain ⟨subs, hlen, hrun⟩ :=
        ih { bnWs with wsConn := some ⟨conn.wsUrl, conn.sent ++ [sub]⟩ }
          ⟨conn.wsUrl, conn.sent ++ [sub]⟩ ho rfl
      have hvc : SubCall.valid { bnWs with wsConn := some ⟨conn.wsUrl, conn.sent ++ [sub]⟩ }
          = SubCall.valid bnWs :=
        funext (fun x => valid_congr _ _ x rfl rfl rfl rfl)
      rw [hvc] at hlen
      refine ⟨sub :: subs, ?_, ?_⟩
      · rw [List.filter_cons_of_pos (by simp [hv]), List.length_cons, List.length_cons, hlen]
      · rw [runCalls_cons_ret deps bnWs c rest _ (by rw [hs]), hs]
        simp [hrun, List.append_assoc]

/-- Calls that all fail validation leave the client and the network alone. -/
theorem runCalls_all_invalid {F : Type} (deps : Deps F) (bnWs : BinanceWs)
    (calls : List SubCall) (h : ∀ c ∈ calls, c.valid bnWs = false) :
    runCalls deps bnWs calls = (bnWs, []) := by
  induction calls with
  | nil => rfl
  | cons c rest ih =>
    obtain ⟨e, he⟩ := run_invalid deps bnWs c (h c (List.mem_cons_self _ _))
    rw [runCalls_cons_ret deps bnWs c rest (some e) (by rw [he]), he]
    simp [ih (fun x hx => h x (List.mem_cons_of_mem _ hx))]

theorem countP_isBuild_subscribe (subs : List String) :
    (subs.map NetAction.subscribe).countP NetAction.isBuild = 0 := by
  induction subs with
  | nil => rfl
  | cons x rest ih => simp [List.countP_cons, NetAction.isBuild, ih]

/-- The first call that passes validation builds the socket; the calls after it send their
directives over that connection. -/
theorem runCalls_first_valid {F : Type} (deps : Deps F) (bnWs : BinanceWs)
    (ho : bnWs.Once = false) (c : SubCall) (post : List SubCall)
    (hc : c.valid bnWs = true) :
    ∀ pre : List SubCall, (∀ x ∈ pre, x.valid bnWs = false) →
      ∃ sub subs,
        (c.run deps bnWs).net
          = [NetAction.build bnWs.WsBuilder.wsUrl, NetAction.receiveMessage,
             NetAction.subscribe sub] ∧
        subs.length = (post.filter (SubCall.valid bnWs)).length ∧
        (runCalls deps bnWs (pre ++ c :: post)).2
          = NetAction.build bnWs.WsBuilder.wsUrl :: NetAction.receiveMessage
              :: (sub :: subs).map NetAction.subscribe ∧
        (runCalls deps bnWs (pre ++ c :: post)).1.Once = true ∧
        (runCalls deps bnWs (pre ++ c :: post)).1.wsConn
          = some ⟨bnWs.WsBuilder.wsUrl, sub :: subs⟩ := by
  intro pre
  induction pre with
  | nil =>
    intro _
    obtain ⟨sub, hs⟩ := run_valid deps bnWs c hc
    rw [subscribe_fresh deps bnWs sub ho] at hs
    obtain ⟨subs, hlen, hrun⟩ :=
      runCalls_connected deps post
        { bnWs with Once := true, wsConn := some ⟨bnWs.WsBuilder.wsUrl, [sub]⟩ }
        ⟨bnWs.WsBuilder.wsUrl, [sub]⟩ rfl rfl
    have hvc : SubCall.valid
        { bnWs with Once := true, wsConn := some ⟨bnWs.WsBuilder.wsUrl, [sub]⟩ }
          = SubCall.valid bnWs :=
      funext (fun x => valid_congr _ _ x rfl rfl rfl rfl)
    rw [hvc] at hlen
    refine ⟨sub, subs, by rw [hs], hlen, ?_, ?_, ?_⟩
    · rw [List.nil_append, runCalls_cons_ret deps bnWs c post _ (by rw [hs]), hs]
      simp [hrun]
    · rw [List.nil_append, runCalls_cons_ret deps bnWs c post _ (by rw [hs]), hs]
      simp [hrun]
    · rw [List.nil_append, runCalls_cons_ret deps bnWs c post _ (by rw [hs]), hs]
      simp [hrun]
  | cons x pre ih =>
    intro hpre
    obtain ⟨e, he⟩ := run_invalid deps bnWs x (hpre x (List.mem_cons_self _ _))
    obtain ⟨sub, subs, h1, h2, h3, h4, h5⟩ := ih (fun y hy => hpre y (List.mem_cons_of_mem _ hy))
    refine ⟨sub, subs, h1, h2, ?_, ?_, ?_⟩
    · rw [List.cons_append, runCalls_cons_ret deps bnWs x _ (some e) (by rw [he]), he]
      simpa using h3
    · rw [List.cons_append, runCalls_cons_ret deps bnWs x _ (some e) (by rw [he]), he]
      simpa using h4
    · rw [List.cons_append, runCalls_cons_ret deps bnWs x _ (some e) (by rw [he]), he]
      simpa using h5

theorem first_valid_split (bnWs : BinanceWs) (calls : List SubCall) :
    (∀ c ∈ calls, c.valid bnWs = false) ∨
    ∃ pre c post, calls = pre ++ c :: post ∧ (∀ x ∈ pre, x.valid bnWs = false) ∧
      c.valid bnWs = true := by
  induction calls with
  | nil => exact Or.inl (fun c hc => by cases hc)
  | cons c rest ih =>
    cases hv : c.valid bnWs with
    | true => exact Or.inr ⟨[], c, rest, rfl, fun x hx => (by cases hx), hv⟩
    | false =>
      rcases ih with h | ⟨pre, d, post, heq, hpre, hd⟩
      · refine Or.inl (fun x hx => ?_)
        rcases List.mem_cons.mp hx with rfl | hx
        · exact hv
        · exact h x hx
      · refine Or.inr ⟨c :: pre, d, post, by rw [heq]; rfl, fun x hx => ?_, hd⟩
        rcases List.mem_cons.mp hx with rfl | hx
        · exact hv
        · exact hpre x hx

/-- C15: for every sequence of subscribe calls made one after the other on a client that has
not connected yet, the socket is built and its receive loop started exactly once, by the
first call that passes validation, and never again afterwards; every later call that
passes validation sends its directive over that same connection. The number of builds
is at most 1 after any sequence, and is 1 once a call has passed validation. A call
passes validation exactly when it goes on to `subscribe`. -/
theorem Subscribe_sequence_builds_once {F : Type} (deps : Deps F) (bnWs : BinanceWs)
    (calls : List SubCall) (ho : bnWs.Once = false) :
    (∀ c : SubCall,
      (c.valid bnWs = false → ∃ e, c.run deps bnWs = ⟨bnWs, [], Exit.ret (some e)⟩) ∧
      (c.valid bnWs = true → ∃ sub, c.run deps bnWs = subscribe deps bnWs sub)) ∧
    (runCalls deps bnWs calls).2.countP NetAction.isBuild ≤ 1 ∧
    ((∀ c ∈ calls, c.valid bnWs = false) → runCalls deps bnWs calls = (bnWs, [])) ∧
    (∀ pre c post, calls = pre ++ c :: post → (∀ x ∈ pre, x.valid bnWs = false) →
      c.valid bnWs = true →
      runCalls deps bnWs pre = (bnWs, []) ∧
      ∃ sub subs,
        (c.run deps bnWs).net
          = [NetAction.build bnWs.WsBuilder.wsUrl, NetAction.receiveMessage,
             NetAction.subscribe sub] ∧
        subs.length = (post.filter (SubCall.valid bnWs)).length ∧
        (runCalls deps bnWs calls).2
          = NetAction.build bnWs.WsBuilder.wsUrl :: NetAction.receiveMessage
              :: (sub :: subs).map NetAction.subscribe ∧
        (runCalls deps bnWs calls).2.countP NetAction.isBuild = 1 ∧
        (runCalls deps bnWs calls).1.Once = true ∧
        (runCalls deps bnWs calls).1.wsConn
          = some ⟨bnWs.WsBuilder.wsUrl, sub :: subs⟩) := by
  have hcount : ∀ (url sub : String) (subs : List String),
      (NetAction.build url :: NetAction.receiveMessage
        :: (sub :: subs).map NetAction.subscribe).countP NetAction.isBuild = 1 := by
    intro url sub subs
    rw [List.countP_cons_of_pos _ _ (by rfl), List.countP_cons_of_neg _ _ (by simp [NetAction.isBuild]),
      countP_isBuild_subscribe]
  refine ⟨fun c => ⟨run_invalid deps bnWs c, run_valid deps bnWs c⟩, ?_,
    runCalls_all_invalid deps bnWs calls, ?_⟩
  · rcases first_valid_split bnWs calls with h | ⟨pre, c, post, heq, hpre, hc⟩
    · rw [runCalls_all_invalid deps bnWs calls h]
      exact Nat.zero_le _
    · obtain ⟨sub, subs, _, _, h3, _, _⟩ :=
        runCalls_first_valid deps bnWs ho c post hc pre hpre
      rw [heq, h3, hcount]
  · intro pre c post heq hpre hc
    obtain ⟨sub, subs, h1, h2, h3, h4, h5⟩ :=
      runCalls_first_valid deps bnWs ho c post hc pre hpre
    subst heq
    exact ⟨runCalls_all_invalid deps bnWs pre hpre,
      sub, subs, h1, h2, h3, by rw [h3, hcount], h4, h5⟩

/-- Instance of C15: on the reference client, a depth call of size 7 is refused, the ticker
call after it builds the socket, and the trade and depth calls that follow only send
their directives. -/
theorem Subscribe_sequence_builds_once_witness :
    (runCalls Ref.deps Ref.client
        [SubCall.depth Ref.LTC_BTC 7, SubCall.ticker Ref.LTC_BTC, SubCall.trade Ref.LTC_BTC,
         SubCall.depth Ref.LTC_BTC 5]).2.countP NetAction.isBuild ≤ 1 ∧
    (runCalls Ref.deps Ref.client [SubCall.depth Ref.LTC_BTC 7] = (Ref.client, []) ∧
      ∃ sub subs,
        ((SubCall.ticker Ref.LTC_BTC).run Ref.deps Ref.client).net
          = [NetAction.build Ref.client.WsBuilder.wsUrl, NetAction.receiveMessage,
             NetAction.subscribe sub] ∧
        subs.length
          = ([SubCall.trade Ref.LTC_BTC, SubCall.depth Ref.LTC_BTC 5].filter
              (SubCall.valid Ref.client)).length ∧
        (runCalls Ref.deps Ref.client
            [SubCall.depth Ref.LTC_BTC 7, SubCall.ticker Ref.LTC_BTC,
             SubCall.trade Ref.LTC_BTC, SubCall.depth Ref.LTC_BTC 5]).2
          = NetAction.build Ref.client.WsBuilder.wsUrl :: NetAction.receiveMessage
              :: (sub :: subs).map NetAction.subscribe ∧
        (runCalls Ref.deps Ref.client
            [SubCall.depth Ref.LTC_BTC 7, SubCall.ticker Ref.LTC_BTC,
             SubCall.trade Ref.LTC_BTC, SubCall.depth Ref.LTC_BTC 5]).2.countP
          NetAction.isBuild = 1 ∧
        (runCalls Ref.deps Ref.client
            [SubCall.depth Ref.LTC_BTC 7, SubCall.ticker Ref.LTC_BTC,
             SubCall.trade Ref.LTC_BTC, SubCall.depth Ref.LTC_BTC 5]).1.Once = true ∧
        (runCalls Ref.deps Ref.client
            [SubCall.depth Ref.LTC_BTC 7, SubCall.ticker Ref.LTC_BTC,
             SubCall.trade Ref.LTC_BTC, SubCall.depth Ref.LTC_BTC 5]).1.wsConn
          = some ⟨Ref.client.WsBuilder.wsUrl, sub :: subs⟩) ∧
    (runCalls Ref.deps Ref.client
        [SubCall.depth Ref.LTC_BTC 7, SubCall.ticker Ref.LTC_BTC, SubCall.trade Ref.LTC_BTC,
         SubCall.depth Ref.LTC_BTC 5]).2
      = [NetAction.build "wss://stream.binance.com:9443/ws", NetAction.receiveMessage,
         NetAction.subscribe "wss://stream.binance.com:9443/ws/ltcbtc@ticker",
         NetAction.subscribe "wss://stream.binance.com:9443/ws/ltcbtc@trade",
         NetAction.subscribe "wss://stream.binance.com:9443/ws/ltcbtc@depth<5>"] :=
  ⟨(Subscribe_sequence_builds_once Ref.deps Ref.client
      [SubCall.depth Ref.LTC_BTC 7, SubCall.ticker Ref.LTC_BTC, SubCall.trade Ref.LTC_BTC,
       SubCall.depth Ref.LTC_BTC 5] (by decide)).2.1,
   (Subscribe_sequence_builds_once Ref.deps Ref.client
      [SubCall.depth Ref.LTC_BTC 7, SubCall.ticker Ref.LTC_BTC, SubCall.trade Ref.LTC_BTC,
       SubCall.depth Ref.LTC_BTC 5] (by decide)).2.2.2
      [SubCall.depth Ref.LTC_BTC 7] (SubCall.ticker Ref.LTC_BTC)
      [SubCall.trade Ref.LTC_BTC, SubCall.depth Ref.LTC_BTC 5] rfl (by decide) (by decide),
   by decide⟩

end Binance
